import Mathlib

/-!
Shallow embedding of the core of the `insta_page_analyzer` repository:
the time-series data model (`timeseries_models.js`), the metric-aware
aggregation service, `reach_calculator.js`, `timeseries_analytics.js`,
`period_extractor.js` and the row/content validators of
`period_validator.js`, together with theorems settling the claims about
them.

Modelling conventions:
* JS numbers are modelled as `ℚ`; `Math.round` is `jsRound` (round half
  towards `+∞`, i.e. `⌊q + 1/2⌋`, which is what JS does on exact values).
* after `MonthlyAccountData.validateMetrics` every metric slot holds a
  number (never `null`/`NaN`), so record metrics are total functions and
  the source's `value !== null && value !== undefined && !isNaN(value)`
  guards are vacuously true in the model; the `value >= 0` parts are kept.
* JS `Map` objects are association lists in insertion order; `Map.set`
  replaces in place or appends (`mapSet`).
* JS `Array.prototype.sort` is stable; it is modelled with
  `List.insertionSort`, which is also stable, so the results agree for
  the total preorders used by the source.
* functions that can `throw` return `Except String α`.
-/

namespace InstaCore

/-- JS `Math.round q`: round to the nearest integer, halves towards `+∞`. -/
def jsRound (q : ℚ) : ℤ := ⌊q + 1 / 2⌋

/-- The closed set of metric keys carried by a `MonthlyAccountData` record
(`timeseries_models.js`, `validateMetrics`). -/
inductive Metric where
  | reach
  | followers
  | views
deriving DecidableEq

/-- `NON_SUMMABLE_METRICS` from `reach_calculator.js`. -/
def NON_SUMMABLE_METRICS : List Metric := [.reach]

/-- `SUMMABLE_METRICS` from `reach_calculator.js`. -/
def SUMMABLE_METRICS : List Metric := [.followers, .views]

/-- `isMetricSummable` from `reach_calculator.js`. -/
def isMetricSummable (metric : Metric) : Bool := SUMMABLE_METRICS.contains metric

/-- The metrics object built by `MonthlyAccountData.validateMetrics`. -/
structure Metrics where
  reach : ℚ
  followers : ℚ
  views : ℚ
deriving DecidableEq

/-- Dynamic access `metrics[metric]`. -/
def Metrics.get (ms : Metrics) : Metric → ℚ
  | .reach => ms.reach
  | .followers => ms.followers
  | .views => ms.views

/-- `InstagramAccount` (`timeseries_models.js`); the `createdAt` timestamp
is irrelevant to every claim and omitted. -/
structure InstagramAccount where
  username : String
  accountId : String
  displayName : String
deriving DecidableEq

/-- `InstagramAccount.getKey`. -/
def InstagramAccount.getKey (a : InstagramAccount) : String := "account_" ++ a.accountId

/-- A `{year, month}` period value. -/
structure Period where
  year : ℤ
  month : ℤ
deriving DecidableEq

/-- `MonthlyAccountData` (`timeseries_models.js`), `createdAt` omitted. -/
structure MonthlyAccountData where
  account : InstagramAccount
  year : ℤ
  month : ℤ
  metrics : Metrics
deriving DecidableEq

/-- `MonthlyAccountData.getPeriod`. -/
def MonthlyAccountData.getPeriod (d : MonthlyAccountData) : Period := ⟨d.year, d.month⟩

/-- JS `Map` as an association list in insertion order; `Map.set` replaces
an existing key in place and appends a new key at the end. -/
def mapSet {κ α : Type} [DecidableEq κ] : List (κ × α) → κ → α → List (κ × α)
  | [], k, v => [(k, v)]
  | (k', v') :: rest, k, v =>
    if k' = k then (k, v) :: rest else (k', v') :: mapSet rest k v

/-- JS `Map.get` (first entry with the key). -/
def mapGet {κ α : Type} [DecidableEq κ] : List (κ × α) → κ → Option α
  | [], _ => none
  | (k', v') :: rest, k => if k' = k then some v' else mapGet rest k

/-- The comparator `(a, b) => a.year - b.year || a.month - b.month` used to
sort periods and records chronologically. -/
def periodLe (a b : Period) : Prop :=
  a.year < b.year ∨ (a.year = b.year ∧ a.month ≤ b.month)

instance : DecidableRel periodLe := fun a b => by
  unfold periodLe; exact inferInstance

instance : IsTotal Period periodLe := by
  constructor; intro a b; unfold periodLe; omega

instance : IsTrans Period periodLe := by
  constructor; intro a b c; unfold periodLe; omega

instance : IsAntisymm Period periodLe := by
  constructor
  intro a b h1 h2
  unfold periodLe at h1 h2
  have hy : a.year = b.year := by omega
  have hm : a.month = b.month := by omega
  cases a; cases b
  simp_all

/-- Chronological comparison of two monthly records (year, then month). -/
def dataLe (a b : MonthlyAccountData) : Prop := periodLe a.getPeriod b.getPeriod

instance : DecidableRel dataLe := fun a b => by
  unfold dataLe; exact inferInstance

instance : IsTotal MonthlyAccountData dataLe := by
  constructor; intro a b; exact total_of periodLe _ _

instance : IsTrans MonthlyAccountData dataLe := by
  constructor; intro a b c hab hbc; exact trans_of periodLe hab hbc

/-- Lexicographic comparison of character lists by code point, modelling
the string comparison behind `localeCompare` sorting. -/
def charListLe : List Char → List Char → Bool
  | [], _ => true
  | _ :: _, [] => false
  | a :: as, b :: bs =>
    a.toNat < b.toNat || (a.toNat = b.toNat && charListLe as bs)

/-- `String.toLowerCase`, written character-by-character (semantically the
map of `Char.toLower` over the string, like the library `String.toLower`). -/
def jsToLower (s : String) : String := String.mk (s.data.map Char.toLower)

/-- `String.prototype.trim`: strip whitespace from both ends. -/
def jsTrim (s : String) : String :=
  String.mk (((s.data.dropWhile Char.isWhitespace).reverse.dropWhile Char.isWhitespace).reverse)

/-- Alphabetical-by-username comparison (`localeCompare` modelled as
code-point lexicographic order). -/
def usernameLe (a b : MonthlyAccountData) : Prop :=
  charListLe a.account.username.data b.account.username.data = true

instance : DecidableRel usernameLe := fun a b => by
  unfold usernameLe; exact inferInstance

instance : IsTotal MonthlyAccountData usernameLe := by
  constructor
  intro x y
  unfold usernameLe
  generalize x.account.username.data = as
  generalize y.account.username.data = bs
  induction as generalizing bs with
  | nil => left; cases bs <;> rfl
  | cons a as ih =>
    cases bs with
    | nil => right; rfl
    | cons b bs =>
      rcases Nat.lt_trichotomy a.toNat b.toNat with h | h | h
      · left; simp [charListLe, h]
      · rcases ih bs with h2 | h2
        · left; simp [charListLe, h, h2]
        · right; simp [charListLe, h.symm, h2]
      · right; simp [charListLe, h]

instance : IsTrans MonthlyAccountData usernameLe := by
  constructor
  intro x y z hab hbc
  unfold usernameLe at hab hbc ⊢
  revert hab hbc
  generalize x.account.username.data = as
  generalize y.account.username.data = bs
  generalize z.account.username.data = cs
  intro h1 h2
  induction as generalizing bs cs with
  | nil => cases cs <;> rfl
  | cons a as ih =>
    cases bs with
    | nil => simp [charListLe] at h1
    | cons b bs =>
      cases cs with
      | nil => simp [charListLe] at h2
      | cons c cs =>
        simp only [charListLe, Bool.or_eq_true, Bool.and_eq_true, decide_eq_true_eq] at h1 h2 ⊢
        rcases h1 with h1 | ⟨h1e, h1r⟩
        · rcases h2 with h2 | ⟨h2e, h2r⟩
          · exact Or.inl (h1.trans h2)
          · exact Or.inl (h2e ▸ h1)
        · rcases h2 with h2 | ⟨h2e, h2r⟩
          · exact Or.inl (h1e ▸ h2)
          · exact Or.inr ⟨h1e.trans h2e, ih bs cs h1r h2r⟩

/-- `AccountTimeseries` (`timeseries_models.js`): one account plus its
`Map<"year_month", MonthlyAccountData>`; the string key `"y_m"` is in
bijection with the pair `(y, m)` for integers, so the pair is used. -/
structure AccountTimeseries where
  account : InstagramAccount
  monthlyData : List ((ℤ × ℤ) × MonthlyAccountData)
deriving DecidableEq

/-- `AccountTimeseries.addMonthlyData`: throws on a foreign account,
otherwise upserts under the `(year, month)` key. -/
def AccountTimeseries.addMonthlyData (ts : AccountTimeseries) (d : MonthlyAccountData) :
    Except String AccountTimeseries :=
  if d.account.accountId ≠ ts.account.accountId then
    .error "MonthlyData måste tillhöra samma konto"
  else
    .ok { ts with monthlyData := mapSet ts.monthlyData (d.year, d.month) d }

/-- `AccountTimeseries.getMonthlyData`. -/
def AccountTimeseries.getMonthlyData (ts : AccountTimeseries) (year month : ℤ) :
    Option MonthlyAccountData :=
  mapGet ts.monthlyData (year, month)

/-- `AccountTimeseries.getAllMonthlyData`: all records sorted
chronologically. -/
def AccountTimeseries.getAllMonthlyData (ts : AccountTimeseries) : List MonthlyAccountData :=
  List.insertionSort dataLe (ts.monthlyData.map Prod.snd)

/-- `AccountTimeseries.getMonthCount`. -/
def AccountTimeseries.getMonthCount (ts : AccountTimeseries) : ℕ := ts.monthlyData.length

/-- `TimeseriesDataset` (`timeseries_models.js`):
`Map<accountKey, AccountTimeseries>`. -/
structure TimeseriesDataset where
  accountTimeseries : List (String × AccountTimeseries)
deriving DecidableEq

/-- `TimeseriesDataset.addMonthlyData`: creates the owning series on first
sight of the account key, then upserts the record into it. -/
def TimeseriesDataset.addMonthlyData (ds : TimeseriesDataset) (d : MonthlyAccountData) :
    Except String TimeseriesDataset :=
  let accountKey := d.account.getKey
  let ts : AccountTimeseries :=
    match mapGet ds.accountTimeseries accountKey with
    | some ts => ts
    | none => ⟨d.account, []⟩
  match ts.addMonthlyData d with
  | .error e => .error e
  | .ok ts' => .ok ⟨mapSet ds.accountTimeseries accountKey ts'⟩

/-- `TimeseriesDataset.getAccountTimeseries`. -/
def TimeseriesDataset.getAccountTimeseries (ds : TimeseriesDataset) (accountId : String) :
    Option AccountTimeseries :=
  mapGet ds.accountTimeseries ("account_" ++ accountId)

/-- `TimeseriesDataset.getDataForPeriod`: one record per account holding
data for the period, sorted alphabetically by username. -/
def TimeseriesDataset.getDataForPeriod (ds : TimeseriesDataset) (year month : ℤ) :
    List MonthlyAccountData :=
  List.insertionSort usernameLe
    ((ds.accountTimeseries.map Prod.snd).filterMap (fun ts => ts.getMonthlyData year month))

/-- `getStats().totalDataPoints`: the record count of the whole dataset. -/
def TimeseriesDataset.totalDataPoints (ds : TimeseriesDataset) : ℕ :=
  ((ds.accountTimeseries.map Prod.snd).map (·.getMonthCount)).sum

/-! ## `reach_calculator.js` -/

/-- The repeated idiom
`.map(d => d.metrics[metric]).filter(v => v !== null && v !== undefined && !isNaN(v) && v >= 0)`;
the null/NaN guards are vacuous here (metrics are total), `v >= 0` remains. -/
def validMetricValues (ds : List MonthlyAccountData) (metric : Metric) : List ℚ :=
  (ds.map (fun d => d.metrics.get metric)).filter (fun v => 0 ≤ v)

/-- `values.reduce((sum, val) => sum + val, 0)`. -/
def listSum (values : List ℚ) : ℚ := values.foldl (· + ·) 0

/-- `Math.min(...values)` for the nonempty lists it is applied to
(the empty case, `Infinity`, is unreachable behind the guards). -/
def listMin : List ℚ → ℚ
  | [] => 0
  | v :: vs => vs.foldl min v

/-- `Math.max(...values)` for nonempty lists. -/
def listMax : List ℚ → ℚ
  | [] => 0
  | v :: vs => vs.foldl max v

/-- `validateMetricOperation` (`reach_calculator.js` lines 286-302): throws
exactly when the operation is the literal `'sum'` or `'total'` and the
metric is in `NON_SUMMABLE_METRICS`. (The `console.warn` branch for
averaging a summable metric has no effect on the result.) -/
def validateMetricOperation (operation : String) (metric : Metric) : Except String Unit :=
  if (operation = "sum" ∨ operation = "total") ∧ NON_SUMMABLE_METRICS.contains metric then
    .error "KRITISKT FEL: metric representerar unika personer per månad och kan ALDRIG summeras över tid"
  else
    .ok ()

/-- The `switch (operation.toLowerCase())` of `safeMetricAggregation`,
applied to the valid values. -/
def applyAggregation (values : List ℚ) (opLower : String) : Except String ℚ :=
  match opLower with
  | "sum" | "total" => .ok (listSum values)
  | "average" | "mean" => .ok ((jsRound (listSum values / values.length) : ℚ))
  | "min" | "minimum" => .ok (listMin values)
  | "max" | "maximum" => .ok (listMax values)
  | _ => .error "Okänd operation"

/-- `safeMetricAggregation` (`reach_calculator.js` lines 311-352). -/
def safeMetricAggregation (ts : AccountTimeseries) (metric : Metric) (operation : String) :
    Except String ℚ :=
  match validateMetricOperation operation metric with
  | .error e => .error e
  | .ok () =>
    if ts.getAllMonthlyData.isEmpty then .ok 0
    else
      let values := validMetricValues ts.getAllMonthlyData metric
      if values.isEmpty then .ok 0
      else applyAggregation values (jsToLower operation)

/-! ## `timeseries_analytics.js` -/

/-- `calculateMetricTotal` (`timeseries_analytics.js` lines 202-228): guards
with its own inline duplicate of the summable-metric list, then sums the
non-null/non-NaN values (note: with no `>= 0` filter). -/
def calculateMetricTotal (ts : AccountTimeseries) (metric : Metric) : Except String ℚ :=
  if ¬ ([Metric.followers, Metric.views].contains metric) then
    .error "Metric kan inte summeras över månader"
  else
    .ok (listSum ((ts.getAllMonthlyData).map (fun d => d.metrics.get metric)))

/-- `calculatePercentageChange` (`timeseries_analytics.js` lines 14-24);
the `null`-argument branches are unreachable because record metrics are
total numbers in the model. -/
def calculatePercentageChange (currentValue previousValue : ℚ) : ℚ :=
  if previousValue = 0 then (if currentValue > 0 then 100 else 0)
  else ((currentValue - previousValue) / previousValue) * 100

/-- The `(previous, current)` pairs visited by a
`for (let i = 1; i < xs.length; i++)` loop over `xs`. -/
def adjacentPairs {α : Type} : List α → List (α × α)
  | a :: b :: rest => (a, b) :: adjacentPairs (b :: rest)
  | _ => []

/-- One element of the list built by `calculateMonthToMonthTrend`
(`username`/`accountId` echo fields omitted). -/
structure TrendEntry where
  period : Period
  previousPeriod : Period
  currentValue : ℚ
  previousValue : ℚ
  absoluteChange : ℚ
  percentageChange : ℚ
  metric : Metric
deriving DecidableEq

/-- `calculateMonthToMonthTrend` (`timeseries_analytics.js` lines 32-66). -/
def calculateMonthToMonthTrend (ts : AccountTimeseries) (metric : Metric) : List TrendEntry :=
  let monthlyData := ts.getAllMonthlyData
  if monthlyData.length < 2 then []
  else
    (adjacentPairs monthlyData).map (fun pc =>
      let previous := pc.1
      let current := pc.2
      { period := current.getPeriod
        previousPeriod := previous.getPeriod
        currentValue := current.metrics.get metric
        previousValue := previous.metrics.get metric
        absoluteChange := current.metrics.get metric - previous.metrics.get metric
        percentageChange :=
          calculatePercentageChange (current.metrics.get metric) (previous.metrics.get metric)
        metric := metric })

/-! ## The aggregation service (`aggregation_service.js`)

`aggregateAccountData`, `calculatePeriodSummary`, `comparePeriods` and
`calculateMarketShare`, with output objects modelled one structure per JS
object shape (absent JS fields become `none`; the informational `note`
strings are omitted). -/

/-- The per-metric object of `aggregateAccountData`: the non-summable
branch has no `total` field, the summable branch has no `min`/`max`. -/
structure AccMetricAgg where
  type : String
  total : Option ℚ
  average : ℚ
  min : Option ℚ
  max : Option ℚ
deriving DecidableEq

/-- The `metrics` object of an account aggregation, one slot per metric key
(in the source's `allMetrics` order). -/
structure AccountMetricsAgg where
  reach : AccMetricAgg
  followers : AccMetricAgg
  views : AccMetricAgg
deriving DecidableEq

/-- Dynamic access to the per-metric slots. -/
def AccountMetricsAgg.get (ms : AccountMetricsAgg) : Metric → AccMetricAgg
  | .reach => ms.reach
  | .followers => ms.followers
  | .views => ms.views

/-- The `periods` part of an account aggregation. -/
structure PeriodsInfo where
  total : ℕ
  first : Option Period
  last : Option Period
  included : List Period
deriving DecidableEq

/-- The result object of `aggregateAccountData`. -/
structure AccountAggregation where
  account : InstagramAccount
  periods : PeriodsInfo
  metrics : AccountMetricsAgg
deriving DecidableEq

/-- The loop body of `aggregateAccountData` for one metric: note that the
source passes the whole `accountTimeseries` to `safeMetricAggregation`,
not the period-filtered record list. -/
def aggregateMetricForAccount (ts : AccountTimeseries) (metric : Metric) :
    Except String AccMetricAgg :=
  if NON_SUMMABLE_METRICS.contains metric then
    match safeMetricAggregation ts metric "average" with
    | .error e => .error e
    | .ok avg =>
      match safeMetricAggregation ts metric "min" with
      | .error e => .error e
      | .ok mn =>
        match safeMetricAggregation ts metric "max" with
        | .error e => .error e
        | .ok mx =>
          .ok { type := "average", total := none, average := avg, min := some mn, max := some mx }
  else
    match safeMetricAggregation ts metric "sum" with
    | .error e => .error e
    | .ok tot =>
      match safeMetricAggregation ts metric "average" with
      | .error e => .error e
      | .ok avg =>
        .ok { type := "total", total := some tot, average := avg, min := none, max := none }

/-- `createEmptyAggregation` (`aggregation_service.js` lines 367-404). -/
def createEmptyAggregation (account : InstagramAccount) : AccountAggregation :=
  { account := account
    periods := { total := 0, first := none, last := none, included := [] }
    metrics :=
      { reach := { type := "average", total := none, average := 0, min := some 0, max := some 0 }
        followers := { type := "total", total := some 0, average := 0, min := none, max := none }
        views := { type := "total", total := some 0, average := 0, min := none, max := none } } }

/-- The `monthlyData` list `aggregateAccountData` works from: the whole
series, restricted to the filter periods when a nonempty filter is given
(the `periodKeys` set-membership test of the source). -/
def filteredData (ts : AccountTimeseries) (periods : Option (List Period)) :
    List MonthlyAccountData :=
  match periods with
  | some ps =>
    if ps.length > 0 then
      ts.getAllMonthlyData.filter (fun d => ps.any (fun p => p.year == d.year && p.month == d.month))
    else ts.getAllMonthlyData
  | none => ts.getAllMonthlyData

/-- `aggregateAccountData` (`aggregation_service.js` lines 16-77). The
period filter restricts `monthlyData` (hence the `periods` info), while
each `safeMetricAggregation` call receives the unfiltered series, exactly
as in the source. -/
def aggregateAccountData (ts : AccountTimeseries) (periods : Option (List Period)) :
    Except String AccountAggregation :=
  let monthlyData : List MonthlyAccountData := filteredData ts periods
  if monthlyData.isEmpty then .ok (createEmptyAggregation ts.account)
  else
    match aggregateMetricForAccount ts .reach with
    | .error e => .error e
    | .ok reachAgg =>
      match aggregateMetricForAccount ts .followers with
      | .error e => .error e
      | .ok followersAgg =>
        match aggregateMetricForAccount ts .views with
        | .error e => .error e
        | .ok viewsAgg =>
          .ok { account := ts.account
                periods := { total := monthlyData.length
                             first := monthlyData.head?.map (·.getPeriod)
                             last := monthlyData.getLast?.map (·.getPeriod)
                             included := monthlyData.map (·.getPeriod) }
                metrics := { reach := reachAgg, followers := followersAgg, views := viewsAgg } }

/-- The per-metric object of `calculatePeriodSummary`; in the
zero-valid-values branch the source emits a `total: 0` field for every
metric, in the non-summable branch it emits no `total` field. -/
structure MetricSummary where
  total : Option ℚ
  average : ℚ
  min : ℚ
  max : ℚ
  validAccounts : ℕ
  type : String
deriving DecidableEq

/-- The `metrics` object of a period summary; a slot is `none` when the
source object carries no entry for that key (empty period). -/
structure PeriodSummaryMetrics where
  reach : Option MetricSummary
  followers : Option MetricSummary
  views : Option MetricSummary
deriving DecidableEq

/-- Dynamic access to the per-metric slots. -/
def PeriodSummaryMetrics.get (ms : PeriodSummaryMetrics) : Metric → Option MetricSummary
  | .reach => ms.reach
  | .followers => ms.followers
  | .views => ms.views

/-- The result object of `calculatePeriodSummary`. -/
structure PeriodSummary where
  period : Period
  totalAccounts : ℕ
  metrics : PeriodSummaryMetrics
deriving DecidableEq

/-- The loop body of `calculatePeriodSummary` for one metric
(`aggregation_service.js` lines 155-194). -/
def periodMetricSummary (periodData : List MonthlyAccountData) (metric : Metric) :
    MetricSummary :=
  let values := validMetricValues periodData metric
  if values.isEmpty then
    { total := some 0, average := 0, min := 0, max := 0, validAccounts := 0
      type := if NON_SUMMABLE_METRICS.contains metric then "unique_persons" else "countable" }
  else if NON_SUMMABLE_METRICS.contains metric then
    { total := none
      average := (jsRound (listSum values / values.length) : ℚ)
      min := listMin values
      max := listMax values
      validAccounts := values.length
      type := "unique_persons" }
  else
    { total := some (listSum values)
      average := (jsRound (listSum values / values.length) : ℚ)
      min := listMin values
      max := listMax values
      validAccounts := values.length
      type := "countable" }

/-- `calculatePeriodSummary` (`aggregation_service.js` lines 133-197). -/
def calculatePeriodSummary (ds : TimeseriesDataset) (year month : ℤ) : PeriodSummary :=
  let periodData := ds.getDataForPeriod year month
  if periodData.isEmpty then
    { period := ⟨year, month⟩, totalAccounts := 0, metrics := ⟨none, none, none⟩ }
  else
    { period := ⟨year, month⟩
      totalAccounts := periodData.length
      metrics := ⟨some (periodMetricSummary periodData .reach),
                  some (periodMetricSummary periodData .followers),
                  some (periodMetricSummary periodData .views)⟩ }

/-- One per-metric comparison object of `comparePeriods`
(`currentAverage`/`currentTotal` are both modelled as `currentValue`, as
the claims quantify over both shapes). -/
structure ComparisonMetric where
  currentValue : ℚ
  previousValue : ℚ
  absoluteChange : ℚ
  percentageChange : Option ℚ
  type : String
deriving DecidableEq

/-- The `metrics` object of one period comparison. -/
structure ComparisonMetrics where
  reach : ComparisonMetric
  followers : ComparisonMetric
  views : ComparisonMetric
deriving DecidableEq

/-- Dynamic access to the per-metric comparison slots. -/
def ComparisonMetrics.get (ms : ComparisonMetrics) : Metric → ComparisonMetric
  | .reach => ms.reach
  | .followers => ms.followers
  | .views => ms.views

/-- One element of the list returned by `comparePeriods`. -/
structure PeriodComparison where
  currentPeriod : Period
  previousPeriod : Period
  accountCountChange : ℤ
  metrics : ComparisonMetrics
deriving DecidableEq

/-- The loop body of `comparePeriods` for one metric: non-summable metrics
compare the `average` fields, summable metrics the `total` fields, and in
both branches `percentageChange` is `null` unless the previous value is
strictly positive. Reading a field of an absent per-metric summary (empty
period) is a JS `TypeError`, modelled as an error. -/
def comparisonForMetric (current previous : PeriodSummary) (metric : Metric) :
    Except String ComparisonMetric :=
  match current.metrics.get metric, previous.metrics.get metric with
  | none, _ => .error "TypeError: metrics saknas för perioden"
  | some _, none => .error "TypeError: metrics saknas för perioden"
  | some currentMetric, some previousMetric =>
    if NON_SUMMABLE_METRICS.contains metric then
      let currentVal := currentMetric.average
      let previousVal := previousMetric.average
      .ok { currentValue := currentVal
            previousValue := previousVal
            absoluteChange := currentVal - previousVal
            percentageChange :=
              if previousVal > 0 then some (((currentVal - previousVal) / previousVal) * 100)
              else none
            type := "average_comparison" }
    else
      -- the summable branch reads the `total` fields, which are always
      -- present on summable summaries; an absent field would be a JS
      -- `undefined` propagating as `NaN`, modelled as an error
      match currentMetric.total, previousMetric.total with
      | none, _ => .error "TypeError: total saknas"
      | some _, none => .error "TypeError: total saknas"
      | some currentVal, some previousVal =>
        .ok { currentValue := currentVal
              previousValue := previousVal
              absoluteChange := currentVal - previousVal
              percentageChange :=
                if previousVal > 0 then some (((currentVal - previousVal) / previousVal) * 100)
                else none
              type := "total_comparison" }

/-- The accumulation loop of `comparePeriods` over the `(previous, current)`
summary pairs. -/
def comparisonsLoop : List (PeriodSummary × PeriodSummary) → Except String (List PeriodComparison)
  | [] => .ok []
  | (previous, current) :: rest =>
    match comparisonForMetric current previous .reach with
    | .error e => .error e
    | .ok r =>
      match comparisonForMetric current previous .followers with
      | .error e => .error e
      | .ok f =>
        match comparisonForMetric current previous .views with
        | .error e => .error e
        | .ok v =>
          match comparisonsLoop rest with
          | .error e => .error e
          | .ok tail =>
            .ok ({ currentPeriod := current.period
                   previousPeriod := previous.period
                   accountCountChange := (current.totalAccounts : ℤ) - (previous.totalAccounts : ℤ)
                   metrics := ⟨r, f, v⟩ } :: tail)

/-- `comparePeriods` (`aggregation_service.js` lines 205-264). -/
def comparePeriods (ds : TimeseriesDataset) (periods : List Period) :
    Except String (List PeriodComparison) :=
  if periods.length < 2 then
    .error "comparePeriods kräver TimeseriesDataset och minst 2 perioder"
  else
    comparisonsLoop (adjacentPairs (periods.map (fun p => calculatePeriodSummary ds p.year p.month)))

/-- One element of the list returned by `calculateMarketShare`
(`allMetrics` echo field omitted). -/
structure MarketShareEntry where
  account : InstagramAccount
  period : Period
  metric : Metric
  value : ℚ
  marketShare : ℚ
  totalMarket : ℚ
deriving DecidableEq

/-- Descending order on `marketShare` (`(a, b) => b.marketShare - a.marketShare`). -/
def shareDesc (a b : MarketShareEntry) : Prop := b.marketShare ≤ a.marketShare

instance : DecidableRel shareDesc := fun a b => by
  unfold shareDesc; exact inferInstance

instance : IsTotal MarketShareEntry shareDesc := by
  constructor; intro a b; exact le_total b.marketShare a.marketShare

instance : IsTrans MarketShareEntry shareDesc := by
  constructor; intro a b c hab hbc; exact le_trans hbc hab

/-- The map body of `calculateMarketShare`:
`Math.round((value / totalMarket) * 10000) / 100` is the share in percent
rounded to two decimals. -/
def marketShareEntry (year month : ℤ) (metric : Metric) (totalMarket : ℚ)
    (d : MonthlyAccountData) : MarketShareEntry :=
  { account := d.account
    period := ⟨year, month⟩
    metric := metric
    value := d.metrics.get metric
    marketShare := (jsRound ((d.metrics.get metric / totalMarket) * 10000) : ℚ) / 100
    totalMarket := totalMarket }

/-- `calculateMarketShare` (`aggregation_service.js` lines 316-360). -/
def calculateMarketShare (ds : TimeseriesDataset) (year month : ℤ) (metric : Metric) :
    Except String (List MarketShareEntry) :=
  if NON_SUMMABLE_METRICS.contains metric then
    .error "Marknadsandel kan inte beräknas eftersom metric representerar unika personer som kan överlappa mellan konton"
  else
    let periodData := ds.getDataForPeriod year month
    if periodData.isEmpty then .ok []
    else
      let validData := periodData.filter (fun d => decide (0 ≤ d.metrics.get metric))
      if validData.isEmpty then .ok []
      else
        let totalMarket := listSum (validData.map (fun d => d.metrics.get metric))
        if totalMarket = 0 then .ok []
        else
          .ok (List.insertionSort shareDesc
            (validData.map (marketShareEntry year month metric totalMarket)))

/-! ## CSV ingestion (`csv_processor.js` / `timeseries_models.js`)

A parsed CSV cell is `Option String`: `none` for an absent column value
(JS `undefined`), `some s` for a present string (Papa Parse is configured
with `dynamicTyping: false`, so cells are always strings). -/

/-- JS truthiness of a string cell: `undefined` and `''` are falsy, every
other string is truthy. -/
def truthyStr : Option String → Bool
  | none => false
  | some s => s ≠ ""

/-- JS `a || b` on string cells. -/
def jsOrStr (a b : Option String) : Option String := if truthyStr a then a else b

/-- The `!row.X || row.X.trim() === ''` test of the row validators. -/
def blankStr : Option String → Bool
  | none => true
  | some s => jsTrim s = ""

/-- Value of a digit list read left to right. -/
def digitsVal (cs : List Char) : ℕ :=
  cs.foldl (fun acc c => acc * 10 + (c.toNat - '0'.toNat)) 0

/-- The syntactic part of JS `parseFloat` on the grammar its call sites
produce after comma-stripping: an optional sign, then digits with at most
one decimal point, ignoring trailing junk. Returns the sign flag and the
integer/fraction digit runs, or `none` (JS `NaN`) when no leading numeric
prefix exists. Exponents, leading whitespace and `Infinity`, which
`parseFloat` also accepts, do not occur in the ingested data and are not
modelled. -/
def floatParts (s : String) : Option (Bool × List Char × List Char) :=
  let cs := s.toList
  let neg : Bool := cs.head? == some '-'
  let cs := if cs.head? = some '-' ∨ cs.head? = some '+' then cs.tail else cs
  let intDigits := cs.takeWhile (·.isDigit)
  let rest := cs.dropWhile (·.isDigit)
  let fracDigits :=
    match rest with
    | '.' :: r => r.takeWhile (·.isDigit)
    | _ => []
  if intDigits.isEmpty && fracDigits.isEmpty then none
  else some (neg, intDigits, fracDigits)

/-- JS `parseFloat`: the numeric value of the parsed parts. -/
def jsParseFloat (s : String) : Option ℚ :=
  match floatParts s with
  | none => none
  | some (neg, intDigits, fracDigits) =>
    some ((if neg then -1 else 1) * ((digitsVal intDigits : ℚ) +
      (digitsVal fracDigits : ℚ) / (10 ^ fracDigits.length : ℕ)))

/-- `String(value).replace(/,/g, '')`. -/
def stripCommas (s : String) : String := String.mk (s.toList.filter (· ≠ ','))

/-- `MonthlyAccountData.parseNumeric` (`timeseries_models.js` lines
472-476): `null`/`undefined`/`''` and unparsable input coerce to `0`. -/
def parseNumeric (value : Option String) : ℚ :=
  match value with
  | none => 0
  | some s => if s = "" then 0 else (jsParseFloat (stripCommas s)).getD 0

/-- A parsed CSV row of the 9-column Instagram export (fields in column
order: Account, Account Name, IG ID, FB Page, Reach, Views, Followers,
Status, Comment). -/
structure CSVRow where
  account : Option String
  accountName : Option String
  igId : Option String
  fbPage : Option String
  reach : Option String
  views : Option String
  followers : Option String
  status : Option String
  comment : Option String
deriving DecidableEq

/-- `InstagramAccount.fromCSVRow` composed with the `InstagramAccount`
constructor: throws when `Account` or `IG ID` is missing/empty, otherwise
trims the fields; `displayName` falls back to `Account` via `||`. -/
def InstagramAccount.fromCSVRow (row : CSVRow) : Except String InstagramAccount :=
  if ¬ truthyStr row.account ∨ ¬ truthyStr row.igId then
    .error "CSV-rad saknar obligatoriska fält: Account eller IG ID"
  else
    .ok { username := jsTrim (row.account.getD "")
          accountId := jsTrim (row.igId.getD "")
          displayName := jsTrim ((jsOrStr row.accountName row.account).getD "") }

/-- `MonthlyAccountData.fromCSVRow` composed with the `MonthlyAccountData`
constructor and `validateMetrics` (`timeseries_models.js` lines 433-488):
the `!year || !month || month < 1 || month > 12` guard throws, and each
metric slot is `parseNumeric` of its column (`rawMetrics.reach ||
rawMetrics.Reach` resolves to the capitalised column, the lowercase keys
being absent on a CSV row). -/
def MonthlyAccountData.fromCSVRow (row : CSVRow) (year month : ℤ) :
    Except String MonthlyAccountData :=
  match InstagramAccount.fromCSVRow row with
  | .error e => .error e
  | .ok account =>
    if year = 0 ∨ month = 0 ∨ month < 1 ∨ month > 12 then
      .error "MonthlyAccountData kräver giltigt år och månad (1-12)"
    else
      .ok { account := account
            year := year
            month := month
            metrics := { reach := parseNumeric row.reach
                         followers := parseNumeric row.followers
                         views := parseNumeric row.views } }

/-! ## `period_validator.js` content validation -/

/-- The result of `validateDataRow`; errors and warnings are kept as
message lists (the `type`/`severity` tags are constant per list). -/
structure RowValidation where
  isValid : Bool
  errors : List String
  warnings : List String
deriving DecidableEq

/-- The warning produced for one field of the `numericFields` loop of
`validateDataRow`: non-numeric or negative present values warn. -/
def numericFieldWarnings (rowNumber : ℕ) (fieldName : String) (value : Option String) :
    List String :=
  match value with
  | none => []
  | some s =>
    if s = "" then []
    else
      match jsParseFloat (stripCommas s) with
      | none => ["Rad " ++ toString rowNumber ++ ": " ++ fieldName ++ " är inte numeriskt"]
      | some q =>
        if q < 0 then ["Rad " ++ toString rowNumber ++ ": " ++ fieldName ++ " är negativt"]
        else []

/-- `validateDataRow` (`period_validator.js` lines 535-582): a row fails
iff `Account` or `IG ID` is missing/blank; a row missing both required
fields contributes two error entries. The `numericFields` loop (which in
the source includes `Status` and `Comment`) only warns. -/
def validateDataRow (row : CSVRow) (rowNumber : ℕ) : RowValidation :=
  let errors :=
    (if blankStr row.account then ["Rad " ++ toString rowNumber ++ ": Saknar Account"] else []) ++
    (if blankStr row.igId then ["Rad " ++ toString rowNumber ++ ": Saknar IG ID"] else [])
  let warnings :=
    numericFieldWarnings rowNumber "Reach" row.reach ++
    numericFieldWarnings rowNumber "Views" row.views ++
    numericFieldWarnings rowNumber "Followers" row.followers ++
    numericFieldWarnings rowNumber "Status" row.status ++
    numericFieldWarnings rowNumber "Comment" row.comment
  { isValid := errors.isEmpty, errors := errors, warnings := warnings }

/-- A warning of `validateCSVDataContent`; the data-error summary warning
carries `rowErrors.slice(0, 10)`, plain warnings carry an empty list. -/
structure ContentWarning where
  message : String
  rowErrors : List String
deriving DecidableEq

/-- The result of `validateCSVDataContent`. -/
structure ContentValidation where
  isValid : Bool
  errors : List String
  warnings : List ContentWarning
deriving DecidableEq

/-- The per-row validations of the content loop (`rowNumber` is 1-based). -/
def rowValidationsOf (csvData : List CSVRow) : List RowValidation :=
  csvData.enum.map (fun p => validateDataRow p.2 (p.1 + 1))

/-- `validRows` counted by the content loop. -/
def validRowCount (csvData : List CSVRow) : ℕ :=
  ((rowValidationsOf csvData).filter (·.isValid)).length

/-- `rowErrors` accumulated by the content loop: the error entries of
every invalid row, concatenated (error objects, not offending rows). -/
def collectedRowErrors (csvData : List CSVRow) : List String :=
  (rowValidationsOf csvData).foldl
    (fun acc rv => acc ++ (if rv.isValid then [] else rv.errors)) []

/-- The per-row warnings forwarded by the content loop. -/
def collectedRowWarnings (csvData : List CSVRow) : List String :=
  (rowValidationsOf csvData).foldl (fun acc rv => acc ++ rv.warnings) []

/-- `validateCSVDataContent` (`period_validator.js` lines 465-527). Both
thresholds compare `rowErrors.length` — the number of error entries —
against fractions of the row count. -/
def validateCSVDataContent (csvData : List CSVRow) : ContentValidation :=
  if csvData.isEmpty then
    { isValid := false, errors := ["CSV-filen innehåller ingen data"], warnings := [] }
  else
    let validRows := validRowCount csvData
    let rowErrors := collectedRowErrors csvData
    let errors :=
      (if validRows = 0 then ["Inga giltiga datarader hittades"] else []) ++
      (if (rowErrors.length : ℚ) ≥ (csvData.length : ℚ) * (1 / 2) then
        ["För många datafel"] else [])
    let warnings :=
      ((collectedRowWarnings csvData).map (fun w => ContentWarning.mk w [])) ++
      (if validRows ≠ 0 ∧ (validRows : ℚ) < (csvData.length : ℚ) * (4 / 5) then
        [ContentWarning.mk "Endast en del av raderna är giltiga (mindre än 80%)" []] else []) ++
      (if rowErrors.length > 0 ∧ (rowErrors.length : ℚ) < (csvData.length : ℚ) * (1 / 2) then
        [ContentWarning.mk "rader har datafel men kan eventuellt processeras" (rowErrors.take 10)]
       else [])
    { isValid := errors.isEmpty, errors := errors, warnings := warnings }

/-! ## `period_extractor.js` -/

/-- `isValidYear`: the source reads the clock (`new Date().getFullYear()`);
the current year is an explicit parameter here. -/
def isValidYear (currentYear year : ℤ) : Bool := 2010 ≤ year ∧ year ≤ currentYear + 5

/-- `isValidMonth`. -/
def isValidMonth (month : ℤ) : Bool := 1 ≤ month ∧ month ≤ 12

/-- `isValidPeriod`. -/
def isValidPeriod (currentYear year month : ℤ) : Bool :=
  isValidYear currentYear year && isValidMonth month

/-- `month.toString().padStart(2, '0')`. -/
def padMonth (m : ℤ) : String :=
  let s := toString m
  if s.length < 2 then "0" ++ s else s

/-- `createStandardFilename`: throws `InvalidPeriodError` out of range. -/
def createStandardFilename (currentYear year month : ℤ) : Except String String :=
  if ¬ isValidPeriod currentYear year month then .error "Ogiltig period"
  else .ok ("IG_" ++ toString year ++ "_" ++ padMonth month)

/-- The `(year, month)` pair standing for the `` `${year}_${month}` ``
lookup key (the string key is in bijection with the pair for integers). -/
def periodKey (p : Period) : ℤ × ℤ := (p.year, p.month)

/-- The month-walking loop of `findMissingPeriods`: visits every month
from the current position to `lastP` inclusive, collecting the ones absent
from `existing` (each absent one first passes through
`createStandardFilename`, whose failure propagates). `fuel` is an upper
bound on the number of visited months — the caller passes more than the
walk can use whenever the months involved lie in `1..12`, so the loop ends
exactly where the source's `while` does. -/
def missingWalk (currentYear : ℤ) (existing : List (ℤ × ℤ)) (lastP : Period) :
    ℕ → ℤ → ℤ → Except String (List Period)
  | 0, _, _ => .ok []
  | fuel + 1, y, m =>
    if y < lastP.year ∨ (y = lastP.year ∧ m ≤ lastP.month) then
      match
        (if existing.contains (y, m) then .ok ([] : List Period)
         else
           match createStandardFilename currentYear y m with
           | .error e => .error e
           | .ok _ => .ok [Period.mk y m] : Except String (List Period)) with
      | .error e => .error e
      | .ok entry =>
        let nextY := if m + 1 > 12 then y + 1 else y
        let nextM := if m + 1 > 12 then 1 else m + 1
        match missingWalk currentYear existing lastP fuel nextY nextM with
        | .error e => .error e
        | .ok rest => .ok (entry ++ rest)
    else .ok []

/-- `findMissingPeriods` (`period_extractor.js` lines 183-224). -/
def findMissingPeriods (currentYear : ℤ) (periods : List Period) :
    Except String (List Period) :=
  match periods with
  | [] => .ok []
  | _ =>
    let sortedPeriods := List.insertionSort periodLe periods
    match sortedPeriods with
    | [] => .ok []
    | f :: _ =>
      let lastP := (sortedPeriods.getLast?).getD f
      let existing := periods.map periodKey
      let fuel := ((lastP.year - f.year).toNat + 2) * 12
      missingWalk currentYear existing lastP fuel f.year f.month

/-! ## Call-counting embeddings for the enforcement-point claim

To talk about whether an aggregation path goes through the single
enforcement point `validateMetricOperation`, the relevant functions are
re-embedded paired with the number of `validateMetricOperation` calls
their source bodies perform. -/

/-- `validateMetricOperation` paired with its own call count (one). -/
def validateMetricOperationCounted (operation : String) (metric : Metric) :
    (Except String Unit) × ℕ :=
  (validateMetricOperation operation metric, 1)

/-- `safeMetricAggregation` with the `validateMetricOperation` call count
threaded through: the source calls the check exactly once, before
aggregating (`reach_calculator.js` line 317). -/
def safeMetricAggregationCounted (ts : AccountTimeseries) (metric : Metric)
    (operation : String) : (Except String ℚ) × ℕ :=
  let vc := validateMetricOperationCounted operation metric
  match vc.1 with
  | .error e => (.error e, vc.2)
  | .ok () =>
    let monthlyData := ts.getAllMonthlyData
    if monthlyData.isEmpty then (.ok 0, vc.2)
    else
      let values := validMetricValues monthlyData metric
      if values.isEmpty then (.ok 0, vc.2)
      else (applyAggregation values (jsToLower operation), vc.2)

/-- `calculatePeriodSummary` with the `validateMetricOperation` call count:
its body (`aggregation_service.js` lines 133-197) computes the
cross-account totals inline, guarded only by the
`NON_SUMMABLE_METRICS.includes(metric)` branch, and contains no call to
`validateMetricOperation` (nor to any function that calls it), so the
count is zero. -/
def calculatePeriodSummaryCounted (ds : TimeseriesDataset) (year month : ℤ) :
    PeriodSummary × ℕ :=
  (calculatePeriodSummary ds year month, 0)

/-! ## Evaluation lemmas for the aggregation pipeline -/

/-- The valid values of one metric over a whole series. -/
def seriesValues (ts : AccountTimeseries) (metric : Metric) : List ℚ :=
  validMetricValues ts.getAllMonthlyData metric

/-- Value of `safeMetricAggregation ts m "sum"` on the non-error path. -/
def safeSumVal (ts : AccountTimeseries) (metric : Metric) : ℚ :=
  if ts.getAllMonthlyData.isEmpty then 0
  else if (seriesValues ts metric).isEmpty then 0
  else listSum (seriesValues ts metric)

/-- Value of `safeMetricAggregation ts m "average"`. -/
def safeAverageVal (ts : AccountTimeseries) (metric : Metric) : ℚ :=
  if ts.getAllMonthlyData.isEmpty then 0
  else if (seriesValues ts metric).isEmpty then 0
  else (jsRound (listSum (seriesValues ts metric) / (seriesValues ts metric).length) : ℚ)

/-- Value of `safeMetricAggregation ts m "min"`. -/
def safeMinVal (ts : AccountTimeseries) (metric : Metric) : ℚ :=
  if ts.getAllMonthlyData.isEmpty then 0
  else if (seriesValues ts metric).isEmpty then 0
  else listMin (seriesValues ts metric)

/-- Value of `safeMetricAggregation ts m "max"`. -/
def safeMaxVal (ts : AccountTimeseries) (metric : Metric) : ℚ :=
  if ts.getAllMonthlyData.isEmpty then 0
  else if (seriesValues ts metric).isEmpty then 0
  else listMax (seriesValues ts metric)

/-- The exact arithmetic mean of a list of values (for stating how far
the rounded averages may deviate). -/
def listMean (l : List ℚ) : ℚ := listSum l / l.length

/-! ## Concrete fixtures used by counterexamples and witnesses -/

/-- A sample account. -/
def exAcctA : InstagramAccount := ⟨"@alpha", "1", "Alpha"⟩

/-- A second sample account, alphabetically after `exAcctA`. -/
def exAcctB : InstagramAccount := ⟨"@beta", "2", "Beta"⟩

/-- Build a record with the three metric values. -/
def exRec (a : InstagramAccount) (y m : ℤ) (r f v : ℚ) : MonthlyAccountData :=
  ⟨a, y, m, ⟨r, f, v⟩⟩

/-- One account whose only record has a negative (invalid) reach value, as
ingestion produces for a CSV cell `"-1"`. -/
def tsNegReach : AccountTimeseries := ⟨exAcctA, [((2025, 1), exRec exAcctA 2025 1 (-1) 5 7)]⟩

/-- Dataset around `tsNegReach`. -/
def dsNegReach : TimeseriesDataset := ⟨[("account_1", tsNegReach)]⟩

/-- The reach summary `calculatePeriodSummary` produces on `dsNegReach`. -/
def msDegenerate : MetricSummary :=
  { total := some 0, average := 0, min := 0, max := 0, validAccounts := 0
    type := "unique_persons" }

/-- A series with no records. -/
def tsEmpty : AccountTimeseries := ⟨exAcctA, []⟩

/-- Two accounts with views 100 and 200 in period 2025-09 (the worked
example of the specification). -/
def tsViews100 : AccountTimeseries := ⟨exAcctA, [((2025, 9), exRec exAcctA 2025 9 1000 10 100)]⟩

/-- Companion series for `dsViews`. -/
def tsViews200 : AccountTimeseries := ⟨exAcctB, [((2025, 9), exRec exAcctB 2025 9 3000 20 200)]⟩

/-- Dataset holding `tsViews100` and `tsViews200`. -/
def dsViews : TimeseriesDataset := ⟨[("account_1", tsViews100), ("account_2", tsViews200)]⟩

/-- The views summary `calculatePeriodSummary` produces on `dsViews` for
2025-09 (total 300, rounded average 150). -/
def msViews : MetricSummary :=
  { total := some 300, average := 150, min := 100, max := 200, validAccounts := 2
    type := "countable" }

/-- One account with views 100 in 2025-01 and 200 in 2025-02. -/
def tsTwoMonths : AccountTimeseries :=
  ⟨exAcctA, [((2025, 1), exRec exAcctA 2025 1 0 0 100), ((2025, 2), exRec exAcctA 2025 2 0 0 200)]⟩

/-- One account whose views are 0 in 2025-01 and 100 in 2025-02 (all other
metrics zero). -/
def tsZeroThen100 : AccountTimeseries :=
  ⟨exAcctA, [((2025, 1), exRec exAcctA 2025 1 0 0 0), ((2025, 2), exRec exAcctA 2025 2 0 0 100)]⟩

/-- Dataset around `tsZeroThen100`. -/
def dsZeroThen100 : TimeseriesDataset := ⟨[("account_1", tsZeroThen100)]⟩

/-- The trend entry `calculateMonthToMonthTrend` yields on `tsTwoMonths`
for views (100 → 200, i.e. +100%). -/
def trendEntry200 : TrendEntry :=
  { period := ⟨2025, 2⟩, previousPeriod := ⟨2025, 1⟩, currentValue := 200, previousValue := 100
    absoluteChange := 100, percentageChange := 100, metric := .views }

/-- The comparison `comparePeriods` yields on `dsZeroThen100`: views went
from total 0 to total 100, with `percentageChange = null`. -/
def comparisonZeroTo100 : PeriodComparison :=
  { currentPeriod := ⟨2025, 2⟩, previousPeriod := ⟨2025, 1⟩, accountCountChange := 0
    metrics := { reach := ⟨0, 0, 0, none, "average_comparison"⟩
                 followers := ⟨0, 0, 0, none, "total_comparison"⟩
                 views := ⟨100, 0, 100, none, "total_comparison"⟩ } }

/-- A record for the upsert example. -/
def recFirst : MonthlyAccountData := exRec exAcctA 2025 1 1 2 3

/-- A different record under the same `(accountId, year, month)` key. -/
def recSecond : MonthlyAccountData := exRec exAcctA 2025 1 9 9 9

/-- The dataset state after adding `recFirst` to the empty dataset. -/
def dsAfterFirst : TimeseriesDataset :=
  ⟨[("account_1", ⟨exAcctA, [((2025, 1), recFirst)]⟩)]⟩

/-- A CSV row whose `Reach` cell is the negative number `"-5"` (Account,
Account Name, IG ID, FB Page, Reach, Views, Followers, Status, Comment). -/
def rowNegReach : CSVRow :=
  ⟨some "@gamma", some "Gamma", some "3", none, some "-5", some "10", some "20", none, none⟩

/-- The record ingestion constructs from `rowNegReach`. -/
def recNegReach : MonthlyAccountData :=
  ⟨⟨"@gamma", "3", "Gamma"⟩, 2025, 1, ⟨-5, 20, 10⟩⟩

/-- A fully valid CSV row. -/
def rowGood : CSVRow :=
  ⟨some "@a", some "A", some "1", none, some "5", some "5", some "5", none, none⟩

/-- A row missing both required fields (`Account` and `IG ID`): it fails
validation with two error entries. -/
def rowBothMissing : CSVRow :=
  ⟨none, none, none, none, some "5", some "5", some "5", none, none⟩

/-- A row missing only `Account` (one error entry). -/
def rowAccountMissing : CSVRow :=
  ⟨none, some "A", some "1", none, some "5", some "5", some "5", none, none⟩

/-- Four rows of which exactly one is invalid, but that one carries two
error entries — enough to cross the `>= 50%` comparison against the
error-entry count. -/
def csvRowsFatal : List CSVRow := [rowBothMissing, rowGood, rowGood, rowGood]

/-- Four rows of which exactly one is invalid with one error entry. -/
def csvRowsWarn : List CSVRow := [rowAccountMissing, rowGood, rowGood, rowGood]

/-! ## Contiguous period ranges (the round-trip vocabulary of the spec) -/

/-- The calendar successor of a period — the `currentMonth > 12` roll-over
step of the `findMissingPeriods` loop. -/
def nextPeriod (p : Period) : Period :=
  if p.month + 1 > 12 then ⟨p.year + 1, 1⟩ else ⟨p.year, p.month + 1⟩

/-- The period `n` calendar months after `p`. -/
def stepN : ℕ → Period → Period
  | 0, p => p
  | n + 1, p => stepN n (nextPeriod p)

/-- The contiguous range of `len` consecutive calendar periods starting at
`a` — the "contiguous period range" of the specification. -/
def periodRange (a : Period) : ℕ → List Period
  | 0 => []
  | len + 1 => a :: periodRange (nextPeriod a) len

/-- Linear month index of a period, for reasoning about the calendar
walk. -/
def periodIdx (p : Period) : ℤ := 12 * p.year + p.month

/-! ## Theorems -/

theorem vmo_average (m : Metric) : validateMetricOperation "average" m = .ok () := by
  cases m <;> rfl

theorem vmo_min (m : Metric) : validateMetricOperation "min" m = .ok () := by
  cases m <;> rfl

theorem vmo_max (m : Metric) : validateMetricOperation "max" m = .ok () := by
  cases m <;> rfl

theorem vmo_sum_of_ne {m : Metric} (hm : m ≠ .reach) :
    validateMetricOperation "sum" m = .ok () := by
  cases m with
  | reach => exact absurd rfl hm
  | followers => rfl
  | views => rfl

theorem vmo_isError_iff (op : String) (m : Metric) :
    (∃ e, validateMetricOperation op m = .error e) ↔
      ((op = "sum" ∨ op = "total") ∧ ¬ isMetricSummable m) := by
  unfold validateMetricOperation
  constructor
  · intro ⟨e, he⟩
    by_cases h : (op = "sum" ∨ op = "total") ∧ NON_SUMMABLE_METRICS.contains m
    · refine ⟨h.1, ?_⟩
      have := h.2
      cases m <;> simp_all [NON_SUMMABLE_METRICS, isMetricSummable, SUMMABLE_METRICS]
    · rw [if_neg h] at he; exact absurd he (by simp)
  · intro ⟨hop, hm⟩
    have hmr : m = .reach := by
      cases m <;> simp_all [isMetricSummable, SUMMABLE_METRICS]
    rw [if_pos ⟨hop, by rw [hmr]; rfl⟩]
    exact ⟨_, rfl⟩

theorem safeMetricAggregation_average (ts : AccountTimeseries) (m : Metric) :
    safeMetricAggregation ts m "average" = .ok (safeAverageVal ts m) := by
  unfold safeMetricAggregation safeAverageVal seriesValues
  rw [vmo_average]
  split_ifs <;> simp_all [applyAggregation, jsToLower]

theorem safeMetricAggregation_min (ts : AccountTimeseries) (m : Metric) :
    safeMetricAggregation ts m "min" = .ok (safeMinVal ts m) := by
  unfold safeMetricAggregation safeMinVal seriesValues
  rw [vmo_min]
  split_ifs <;> simp_all [applyAggregation, jsToLower]

theorem safeMetricAggregation_max (ts : AccountTimeseries) (m : Metric) :
    safeMetricAggregation ts m "max" = .ok (safeMaxVal ts m) := by
  unfold safeMetricAggregation safeMaxVal seriesValues
  rw [vmo_max]
  split_ifs <;> simp_all [applyAggregation, jsToLower]

theorem safeMetricAggregation_sum {m : Metric} (ts : AccountTimeseries) (hm : m ≠ .reach) :
    safeMetricAggregation ts m "sum" = .ok (safeSumVal ts m) := by
  unfold safeMetricAggregation safeSumVal seriesValues
  rw [vmo_sum_of_ne hm]
  split_ifs <;> simp_all [applyAggregation, jsToLower]

theorem safeMetricAggregation_sum_reach (ts : AccountTimeseries) :
    ∃ e, safeMetricAggregation ts .reach "sum" = .error e := by
  exact ⟨_, rfl⟩

theorem aggregateMetricForAccount_reach (ts : AccountTimeseries) :
    aggregateMetricForAccount ts .reach =
      .ok { type := "average", total := none, average := safeAverageVal ts .reach
            min := some (safeMinVal ts .reach), max := some (safeMaxVal ts .reach) } := by
  unfold aggregateMetricForAccount
  rw [show (NON_SUMMABLE_METRICS.contains Metric.reach) = true from rfl,
    safeMetricAggregation_average, safeMetricAggregation_min, safeMetricAggregation_max]
  simp

theorem aggregateMetricForAccount_summable {m : Metric} (ts : AccountTimeseries)
    (hm : m ≠ .reach) :
    aggregateMetricForAccount ts m =
      .ok { type := "total", total := some (safeSumVal ts m), average := safeAverageVal ts m
            min := none, max := none } := by
  unfold aggregateMetricForAccount
  rw [show (NON_SUMMABLE_METRICS.contains m) = false by
      cases m <;> simp_all [NON_SUMMABLE_METRICS],
    safeMetricAggregation_sum ts hm, safeMetricAggregation_average]
  simp

theorem aggregateAccountData_eq (ts : AccountTimeseries) (periods : Option (List Period)) :
    aggregateAccountData ts periods =
      .ok (if (filteredData ts periods).isEmpty then createEmptyAggregation ts.account
        else
          { account := ts.account
            periods := { total := (filteredData ts periods).length
                         first := (filteredData ts periods).head?.map (·.getPeriod)
                         last := (filteredData ts periods).getLast?.map (·.getPeriod)
                         included := (filteredData ts periods).map (·.getPeriod) }
            metrics :=
              { reach := { type := "average", total := none, average := safeAverageVal ts .reach
                           min := some (safeMinVal ts .reach), max := some (safeMaxVal ts .reach) }
                followers := { type := "total", total := some (safeSumVal ts .followers)
                               average := safeAverageVal ts .followers, min := none, max := none }
                views := { type := "total", total := some (safeSumVal ts .views)
                           average := safeAverageVal ts .views, min := none, max := none } } }) := by
  unfold aggregateAccountData
  rw [aggregateMetricForAccount_reach,
    aggregateMetricForAccount_summable ts (by simp : Metric.followers ≠ .reach),
    aggregateMetricForAccount_summable ts (by simp : Metric.views ≠ .reach)]
  split_ifs <;> simp_all [List.isEmpty_iff]

/-! ## Claim C1 -/

/-- C1 counterexample: on a dataset whose only record for 2025-01 has an
invalid (negative) reach value, `calculatePeriodSummary` hits the
zero-valid-values branch and its reach entry *does* carry a `total` field
(`total = 0`), so the per-metric object for the non-summable metric is not
free of `sum`/`total` fields in the degenerate case. -/
theorem C1_degenerate_total_counterexample :
    (calculatePeriodSummary dsNegReach 2025 1).metrics.reach = some msDegenerate ∧
      msDegenerate.total = some 0 := by
  constructor
  · norm_num [calculatePeriodSummary, TimeseriesDataset.getDataForPeriod, dsNegReach, tsNegReach,
      exRec, exAcctA, AccountTimeseries.getMonthlyData, mapGet, List.insertionSort,
      List.orderedInsert, periodMetricSummary, validMetricValues, Metrics.get,
      NON_SUMMABLE_METRICS, msDegenerate]
  · rfl

/-- C1 (amended): `aggregateAccountData` never exposes a `sum`/`total`
field for the non-summable metric (reach), in the degenerate case
included; `calculatePeriodSummary` exposes no `total` field for reach
whenever at least one valid value exists, but in the degenerate
zero-valid-values case its reach entry carries `total = 0`. -/
theorem C1_no_total_for_reach :
    (∀ (ts : AccountTimeseries) (periods : Option (List Period)) (agg : AccountAggregation),
        aggregateAccountData ts periods = .ok agg → agg.metrics.reach.total = none) ∧
    (∀ (ds : TimeseriesDataset) (year month : ℤ) (ms : MetricSummary),
        (calculatePeriodSummary ds year month).metrics.reach = some ms →
          (ms.validAccounts ≠ 0 → ms.total = none) ∧
          (ms.validAccounts = 0 → ms.total = some 0)) := by
  constructor
  · intro ts periods agg h
    rw [aggregateAccountData_eq] at h
    injection h with h
    subst h
    split_ifs <;> rfl
  · intro ds year month ms h
    simp only [calculatePeriodSummary] at h
    split_ifs at h with hpd
    simp only [Option.some.injEq] at h
    subst h
    unfold periodMetricSummary
    simp only [show (NON_SUMMABLE_METRICS.contains Metric.reach) = true from rfl, if_true]
    split_ifs with hv
    · exact ⟨fun hn => absurd rfl hn, fun _ => rfl⟩
    · constructor
      · intro _; rfl
      · intro hlen
        exfalso
        have hnil : validMetricValues (ds.getDataForPeriod year month) .reach = [] :=
          List.length_eq_zero.mp hlen
        rw [← List.isEmpty_iff] at hnil
        exact absurd hnil hv

/-- Witness for `C1_no_total_for_reach` at concrete inputs: the empty
series on the `aggregateAccountData` side and `dsNegReach` on the
`calculatePeriodSummary` side. -/
theorem C1_no_total_for_reach_witness :
    ((createEmptyAggregation exAcctA).metrics.reach.total = none) ∧
      ((msDegenerate.validAccounts ≠ 0 → msDegenerate.total = none) ∧
        (msDegenerate.validAccounts = 0 → msDegenerate.total = some 0)) :=
  ⟨C1_no_total_for_reach.1 tsEmpty none (createEmptyAggregation exAcctA)
      (by rw [aggregateAccountData_eq]; rfl),
    C1_no_total_for_reach.2 dsNegReach 2025 1 msDegenerate
      (by norm_num [calculatePeriodSummary, TimeseriesDataset.getDataForPeriod, dsNegReach,
        tsNegReach, exRec, exAcctA, AccountTimeseries.getMonthlyData, mapGet,
        List.insertionSort, List.orderedInsert, periodMetricSummary, validMetricValues,
        Metrics.get, NON_SUMMABLE_METRICS, msDegenerate])⟩

/-! ## Claim C2 -/

theorem safeMetricAggregationCounted_fst (ts : AccountTimeseries) (m : Metric) (op : String) :
    (safeMetricAggregationCounted ts m op).1 = safeMetricAggregation ts m op := by
  unfold safeMetricAggregationCounted safeMetricAggregation validateMetricOperationCounted
  cases h : validateMetricOperation op m with
  | error e => simp
  | ok u => cases u; simp only []; split_ifs <;> rfl

theorem safeMetricAggregationCounted_snd (ts : AccountTimeseries) (m : Metric) (op : String) :
    (safeMetricAggregationCounted ts m op).2 = 1 := by
  unfold safeMetricAggregationCounted validateMetricOperationCounted
  cases h : validateMetricOperation op m with
  | error e => simp
  | ok u => cases u; simp only []; split_ifs <;> rfl

/-- C2 counterexample: on the specification's own worked example (views
100 and 200 for two accounts in 2025-09) `calculatePeriodSummary` computes
the cross-account total 300, yet performs zero calls to the single
enforcement point `validateMetricOperation` — the cross-account totals of
`calculatePeriodSummary` do not go through that check, contradicting "no
path bypasses it". -/
theorem C2_bypass_counterexample :
    (calculatePeriodSummaryCounted dsViews 2025 9).2 = 0 ∧
      (calculatePeriodSummaryCounted dsViews 2025 9).1.metrics.views =
        some { total := some 300, average := 150, min := 100, max := 200, validAccounts := 2
               type := "countable" } := by
  constructor
  · rfl
  · norm_num +decide [calculatePeriodSummaryCounted, calculatePeriodSummary,
      TimeseriesDataset.getDataForPeriod, dsViews, tsViews100, tsViews200, exRec, exAcctA,
      exAcctB, AccountTimeseries.getMonthlyData, mapGet, List.insertionSort,
      List.orderedInsert, periodMetricSummary, validMetricValues,
      Metrics.get, NON_SUMMABLE_METRICS, listSum, listMin, listMax, jsRound]

/-- C2 (amended): `validateMetricOperation` throws exactly when the
operation is `'sum'`/`'total'` and the metric is not time-summable, and
`safeMetricAggregation` routes every invocation through it (so a sum of
reach is refused there); but `calculateMetricTotal` refuses
non-time-summable metrics through its own inline duplicate of the
summable list, and `calculatePeriodSummary` computes its cross-account
totals with zero calls to `validateMetricOperation`, guarded only by
branching on the metric-category list. -/
theorem C2_enforcement_amended :
    (∀ (op : String) (m : Metric),
        (∃ e, validateMetricOperation op m = .error e) ↔
          ((op = "sum" ∨ op = "total") ∧ ¬ isMetricSummable m)) ∧
    (∀ (ts : AccountTimeseries) (m : Metric) (op : String),
        (safeMetricAggregationCounted ts m op).2 = 1) ∧
    (∀ ts : AccountTimeseries, ∃ e, safeMetricAggregation ts .reach "sum" = .error e) ∧
    (∀ ts : AccountTimeseries, ∃ e, calculateMetricTotal ts .reach = .error e) ∧
    (∀ (ds : TimeseriesDataset) (year month : ℤ),
        (calculatePeriodSummaryCounted ds year month).2 = 0) :=
  ⟨vmo_isError_iff,
    safeMetricAggregationCounted_snd,
    safeMetricAggregation_sum_reach,
    fun _ => ⟨_, rfl⟩,
    fun _ _ _ => rfl⟩

/-! ## Claim C3 -/

/-- C3: evaluation of the embedded `aggregateAccountData` at the failing
input — one account with views 100 in 2025-01 and 200 in 2025-02,
filtered to the single period 2025-01. The `periods` info reflects the
filter (`total = 1`, `included = [2025-01]`), but the views total is 300:
every `safeMetricAggregation` call receives the unfiltered series, so the
per-metric aggregates ignore the period filter. -/
theorem C3_filter_ignored_evaluation :
    aggregateAccountData tsTwoMonths (some [⟨2025, 1⟩]) =
      .ok { account := exAcctA
            periods := { total := 1, first := some ⟨2025, 1⟩, last := some ⟨2025, 1⟩
                         included := [⟨2025, 1⟩] }
            metrics :=
              { reach := { type := "average", total := none, average := 0
                           min := some 0, max := some 0 }
                followers := { type := "total", total := some 0, average := 0
                               min := none, max := none }
                views := { type := "total", total := some 300, average := 150
                           min := none, max := none } } } := by
  rw [aggregateAccountData_eq]
  norm_num [filteredData, tsTwoMonths, exRec, exAcctA, AccountTimeseries.getAllMonthlyData,
    List.insertionSort, List.orderedInsert, dataLe, periodLe, MonthlyAccountData.getPeriod,
    safeSumVal, safeAverageVal, safeMinVal, safeMaxVal, seriesValues, validMetricValues,
    Metrics.get, listSum, listMin, listMax, jsRound]

/-! ## Claim C4 -/

theorem comparisonForMetric_pct {current previous : PeriodSummary} {metric : Metric}
    {c : ComparisonMetric} (h : comparisonForMetric current previous metric = .ok c) :
    c.percentageChange =
      if c.previousValue > 0 then
        some (((c.currentValue - c.previousValue) / c.previousValue) * 100)
      else none := by
  unfold comparisonForMetric at h
  split at h
  · exact absurd h (by simp)
  · exact absurd h (by simp)
  · split_ifs at h with hns
    · injection h with h; subst h; rfl
    · split at h
      · exact absurd h (by simp)
      · exact absurd h (by simp)
      · injection h with h; subst h; rfl

theorem comparisonsLoop_pct :
    ∀ (l : List (PeriodSummary × PeriodSummary)) (cs : List PeriodComparison),
      comparisonsLoop l = .ok cs → ∀ c ∈ cs, ∀ metric : Metric,
        (c.metrics.get metric).percentageChange =
          if (c.metrics.get metric).previousValue > 0 then
            some ((((c.metrics.get metric).currentValue -
              (c.metrics.get metric).previousValue) /
                (c.metrics.get metric).previousValue) * 100)
          else none := by
  intro l
  induction l with
  | nil =>
    intro cs h c hc metric
    unfold comparisonsLoop at h
    injection h with h
    subst h
    exact absurd hc (List.not_mem_nil c)
  | cons pair rest ih =>
    intro cs h c hc metric
    obtain ⟨previous, current⟩ := pair
    unfold comparisonsLoop at h
    cases hr : comparisonForMetric current previous .reach with
    | error e => rw [hr] at h; exact absurd h (by simp)
    | ok r =>
      cases hf : comparisonForMetric current previous .followers with
      | error e => rw [hr, hf] at h; exact absurd h (by simp)
      | ok f =>
        cases hv : comparisonForMetric current previous .views with
        | error e => rw [hr, hf, hv] at h; exact absurd h (by simp)
        | ok v =>
          cases ht : comparisonsLoop rest with
          | error e => rw [hr, hf, hv, ht] at h; exact absurd h (by simp)
          | ok tail =>
            rw [hr, hf, hv, ht] at h
            injection h with h
            subst h
            rcases List.mem_cons.mp hc with rfl | htail
            · cases metric
              · exact comparisonForMetric_pct hr
              · exact comparisonForMetric_pct hf
              · exact comparisonForMetric_pct hv
            · exact ih tail ht c htail metric

/-- C4 counterexample: with views total 0 in 2025-01 and 100 in 2025-02,
`comparePeriods` reports `percentageChange = null` (`none`) for views,
not the `100` the claim's divide-by-zero convention demands. -/
theorem C4_comparePeriods_null_counterexample :
    (comparePeriods dsZeroThen100 [⟨2025, 1⟩, ⟨2025, 2⟩]).map
        (fun cs => cs.map (fun c => (c.metrics.views.previousValue,
          c.metrics.views.currentValue, c.metrics.views.percentageChange)))
      = .ok [(0, 100, none)] := by
  norm_num +decide [comparePeriods, comparisonsLoop, adjacentPairs, comparisonForMetric,
    calculatePeriodSummary, TimeseriesDataset.getDataForPeriod, dsZeroThen100, tsZeroThen100,
    exRec, exAcctA, AccountTimeseries.getMonthlyData, mapGet, List.insertionSort,
    List.orderedInsert, periodMetricSummary, PeriodSummaryMetrics.get, validMetricValues,
    Metrics.get, NON_SUMMABLE_METRICS, listSum, listMin, listMax, jsRound, Except.map]

/-- C4 (amended): `calculateMonthToMonthTrend` follows the claimed
divide-by-zero convention (previous `0` ⇒ `100` when current `> 0`, else
`0`; otherwise standard relative change); `comparePeriods`, however,
reports `percentageChange = null` whenever the compared previous value is
not strictly positive (zero included), and the standard relative change
only when it is positive. -/
theorem C4_percentage_conventions :
    (∀ (ts : AccountTimeseries) (metric : Metric),
        ∀ e ∈ calculateMonthToMonthTrend ts metric,
          e.percentageChange =
            if e.previousValue = 0 then (if e.currentValue > 0 then 100 else 0)
            else ((e.currentValue - e.previousValue) / e.previousValue) * 100) ∧
    (∀ (ds : TimeseriesDataset) (periods : List Period) (cs : List PeriodComparison),
        comparePeriods ds periods = .ok cs → ∀ c ∈ cs, ∀ metric : Metric,
          (c.metrics.get metric).percentageChange =
            if (c.metrics.get metric).previousValue > 0 then
              some ((((c.metrics.get metric).currentValue -
                (c.metrics.get metric).previousValue) /
                  (c.metrics.get metric).previousValue) * 100)
            else none) := by
  constructor
  · intro ts metric e he
    simp only [calculateMonthToMonthTrend] at he
    split_ifs at he with hlen
    · exact absurd he (List.not_mem_nil e)
    · obtain ⟨pc, _, rfl⟩ := List.mem_map.mp he
      rfl
  · intro ds periods cs h c hc metric
    unfold comparePeriods at h
    split_ifs at h with hlen
    exact comparisonsLoop_pct _ cs h c hc metric

theorem trendEntry200_mem : calculateMonthToMonthTrend tsTwoMonths .views = [trendEntry200] := by
  norm_num [calculateMonthToMonthTrend, adjacentPairs, AccountTimeseries.getAllMonthlyData,
    List.insertionSort, List.orderedInsert, dataLe, periodLe, MonthlyAccountData.getPeriod,
    Metrics.get, calculatePercentageChange, tsTwoMonths, exRec, exAcctA, trendEntry200]

theorem comparisonZeroTo100_eval :
    comparePeriods dsZeroThen100 [⟨2025, 1⟩, ⟨2025, 2⟩] = .ok [comparisonZeroTo100] := by
  norm_num +decide [comparePeriods, comparisonsLoop, adjacentPairs, comparisonForMetric,
    calculatePeriodSummary, TimeseriesDataset.getDataForPeriod, dsZeroThen100, tsZeroThen100,
    exRec, exAcctA, AccountTimeseries.getMonthlyData, mapGet, List.insertionSort,
    List.orderedInsert, periodMetricSummary, PeriodSummaryMetrics.get, validMetricValues,
    Metrics.get, NON_SUMMABLE_METRICS, listSum, listMin, listMax, jsRound, comparisonZeroTo100]

/-- Witness for `C4_percentage_conventions` at concrete inputs: the views
trend of `tsTwoMonths` and the views comparison of `dsZeroThen100`. -/
theorem C4_percentage_conventions_witness :
    (trendEntry200.percentageChange =
      if trendEntry200.previousValue = 0 then (if trendEntry200.currentValue > 0 then 100 else 0)
      else ((trendEntry200.currentValue - trendEntry200.previousValue) /
        trendEntry200.previousValue) * 100) ∧
    ((comparisonZeroTo100.metrics.get .views).percentageChange =
      if (comparisonZeroTo100.metrics.get .views).previousValue > 0 then
        some ((((comparisonZeroTo100.metrics.get .views).currentValue -
          (comparisonZeroTo100.metrics.get .views).previousValue) /
            (comparisonZeroTo100.metrics.get .views).previousValue) * 100)
      else none) :=
  ⟨C4_percentage_conventions.1 tsTwoMonths .views trendEntry200
      (by rw [trendEntry200_mem]; exact List.mem_singleton.mpr rfl),
    C4_percentage_conventions.2 dsZeroThen100 [⟨2025, 1⟩, ⟨2025, 2⟩] [comparisonZeroTo100]
      comparisonZeroTo100_eval comparisonZeroTo100 (List.mem_singleton.mpr rfl) .views⟩

/-! ## Claim C5 -/

/-- C5: `calculateMarketShare` throws for the non-accounts-summable metric
(reach); for any other metric it returns, sorted descending by share, one
entry per account with a valid value, whose `marketShare` is the account's
share of the summed market in percent rounded to two decimals
(`Math.round(x * 100) / 100` on the percentage), and it returns the empty
sequence whenever the sum of valid values is zero. -/
theorem C5_marketShare_spec :
    (∀ (ds : TimeseriesDataset) (year month : ℤ),
        ∃ e, calculateMarketShare ds year month .reach = .error e) ∧
    (∀ (ds : TimeseriesDataset) (year month : ℤ) (metric : Metric), metric ≠ .reach →
        ∃ l, calculateMarketShare ds year month metric = .ok l ∧
          List.Sorted shareDesc l ∧
          ((listSum (((ds.getDataForPeriod year month).filter
              (fun d => decide (0 ≤ d.metrics.get metric))).map
                (fun d => d.metrics.get metric)) = 0 → l = []) ∧
           (∀ t, t = listSum (((ds.getDataForPeriod year month).filter
              (fun d => decide (0 ≤ d.metrics.get metric))).map
                (fun d => d.metrics.get metric)) → t ≠ 0 →
              l.Perm (((ds.getDataForPeriod year month).filter
                (fun d => decide (0 ≤ d.metrics.get metric))).map
                  (marketShareEntry year month metric t)) ∧
              ∀ entry ∈ l,
                entry.totalMarket = t ∧
                entry.marketShare = (jsRound ((entry.value / t) * 100 * 100) : ℚ) / 100))) := by
  constructor
  · intro ds year month
    exact ⟨_, rfl⟩
  · intro ds year month metric hm
    unfold calculateMarketShare
    rw [show NON_SUMMABLE_METRICS.contains metric = false from by
      cases metric <;> simp_all [NON_SUMMABLE_METRICS]]
    simp only [Bool.false_eq_true, if_false]
    split_ifs with h1 h2 h3
    · refine ⟨[], rfl, List.sorted_nil, fun _ => rfl, ?_⟩
      intro t ht htne
      exfalso
      apply htne
      rw [ht, List.isEmpty_iff.mp h1]
      rfl
    · refine ⟨[], rfl, List.sorted_nil, fun _ => rfl, ?_⟩
      intro t ht htne
      exfalso
      apply htne
      rw [ht, List.isEmpty_iff.mp h2]
      rfl
    · exact ⟨[], rfl, List.sorted_nil, fun _ => rfl, fun t ht htne => absurd (ht ▸ h3) htne⟩
    · refine ⟨_, rfl, List.sorted_insertionSort _ _, fun h0 => absurd h0 h3, ?_⟩
      intro t ht htne
      subst ht
      constructor
      · exact List.perm_insertionSort _ _
      · intro entry hentry
        rw [List.mem_insertionSort] at hentry
        obtain ⟨d, hd, rfl⟩ := List.mem_map.mp hentry
        refine ⟨rfl, ?_⟩
        unfold marketShareEntry
        norm_num
        congr 1
        ring_nf

/-- Witness for `C5_marketShare_spec` on the two-account views dataset
(shares 200/300 and 100/300 of the 2025-09 market). -/
theorem C5_marketShare_spec_witness :
    ∃ l, calculateMarketShare dsViews 2025 9 .views = .ok l ∧
      List.Sorted shareDesc l ∧
      ((listSum (((dsViews.getDataForPeriod 2025 9).filter
          (fun d => decide (0 ≤ d.metrics.get .views))).map
            (fun d => d.metrics.get .views)) = 0 → l = []) ∧
       (∀ t, t = listSum (((dsViews.getDataForPeriod 2025 9).filter
          (fun d => decide (0 ≤ d.metrics.get .views))).map
            (fun d => d.metrics.get .views)) → t ≠ 0 →
          l.Perm (((dsViews.getDataForPeriod 2025 9).filter
            (fun d => decide (0 ≤ d.metrics.get .views))).map
              (marketShareEntry 2025 9 .views t)) ∧
          ∀ entry ∈ l,
            entry.totalMarket = t ∧
            entry.marketShare = (jsRound ((entry.value / t) * 100 * 100) : ℚ) / 100)) :=
  C5_marketShare_spec.2 dsViews 2025 9 .views (by simp)

/-! ## Claim C6 -/

theorem mapGet_mapSet_self {κ α : Type} [DecidableEq κ] (l : List (κ × α)) (k : κ) (v : α) :
    mapGet (mapSet l k v) k = some v := by
  induction l with
  | nil => simp [mapSet, mapGet]
  | cons p rest ih =>
    obtain ⟨k', v'⟩ := p
    by_cases h : k' = k
    · simp [mapSet, h, mapGet]
    · simp [mapSet, h, mapGet, ih]

theorem length_mapSet_some {κ α : Type} [DecidableEq κ] (l : List (κ × α)) (k : κ) (v x : α)
    (h : mapGet l k = some x) : (mapSet l k v).length = l.length := by
  induction l with
  | nil => simp [mapGet] at h
  | cons p rest ih =>
    obtain ⟨k', v'⟩ := p
    by_cases hk : k' = k
    · simp [mapSet, hk]
    · simp only [mapGet, if_neg hk] at h
      simp [mapSet, hk, ih h]

theorem totalPoints_mapSet_some (l : List (String × AccountTimeseries)) (k : String)
    (ts ts' : AccountTimeseries) (h : mapGet l k = some ts) :
    (((mapSet l k ts').map Prod.snd).map (·.getMonthCount)).sum + ts.getMonthCount =
      ((l.map Prod.snd).map (·.getMonthCount)).sum + ts'.getMonthCount := by
  induction l with
  | nil => simp [mapGet] at h
  | cons p rest ih =>
    obtain ⟨k', v'⟩ := p
    by_cases hk : k' = k
    · simp only [mapGet, if_pos hk, Option.some.injEq] at h
      subst h
      simp [mapSet, hk]
      omega
    · simp only [mapGet, if_neg hk] at h
      have := ih h
      simp only [mapSet, if_neg hk, List.map_cons, List.sum_cons]
      omega

theorem addSecondRecord (ds : TimeseriesDataset) (d e : MonthlyAccountData)
    (tsOrig : AccountTimeseries)
    (hacc : e.account.accountId = d.account.accountId) (hyear : e.year = d.year)
    (hmonth : e.month = d.month) (hid : d.account.accountId = tsOrig.account.accountId) :
    ∃ ds'',
      (TimeseriesDataset.mk (mapSet ds.accountTimeseries d.account.getKey
          { tsOrig with monthlyData := mapSet tsOrig.monthlyData (d.year, d.month) d })
        ).addMonthlyData e = .ok ds'' ∧
      ds''.totalDataPoints =
        (TimeseriesDataset.mk (mapSet ds.accountTimeseries d.account.getKey
          { tsOrig with monthlyData := mapSet tsOrig.monthlyData (d.year, d.month) d })
        ).totalDataPoints ∧
      (ds''.getAccountTimeseries e.account.accountId).map
        (fun ts => ts.getMonthlyData e.year e.month) = some (some e) := by
  set ts1 : AccountTimeseries :=
    { tsOrig with monthlyData := mapSet tsOrig.monthlyData (d.year, d.month) d } with hts1
  set ts2 : AccountTimeseries :=
    { ts1 with monthlyData := mapSet ts1.monthlyData (e.year, e.month) e } with hts2
  have hkey : e.account.getKey = d.account.getKey := by
    unfold InstagramAccount.getKey
    rw [hacc]
  have hidne : ¬ (e.account.accountId ≠ ts1.account.accountId) := by
    push_neg
    rw [hacc, hid]
  have hget2 : mapGet (mapSet ds.accountTimeseries d.account.getKey ts1) e.account.getKey
      = some ts1 := by
    rw [hkey]; exact mapGet_mapSet_self _ _ _
  refine ⟨⟨mapSet (mapSet ds.accountTimeseries d.account.getKey ts1) d.account.getKey ts2⟩,
    ?_, ?_, ?_⟩
  · unfold TimeseriesDataset.addMonthlyData AccountTimeseries.addMonthlyData
    simp only [hget2]
    rw [if_neg hidne, hkey]
  · unfold TimeseriesDataset.totalDataPoints
    have hc : ts2.getMonthCount = ts1.getMonthCount := by
      unfold AccountTimeseries.getMonthCount
      rw [hts2]
      apply length_mapSet_some (x := d)
      rw [hts1]
      simp only [hyear, hmonth]
      exact mapGet_mapSet_self _ _ _
    have hpts := totalPoints_mapSet_some (mapSet ds.accountTimeseries d.account.getKey ts1)
      d.account.getKey ts1 ts2 (mapGet_mapSet_self _ _ _)
    simp only [AccountTimeseries.getMonthCount] at hc hpts ⊢
    omega
  · unfold TimeseriesDataset.getAccountTimeseries
    have hk2 : ("account_" ++ e.account.accountId) = d.account.getKey := by
      unfold InstagramAccount.getKey
      rw [hacc]
    rw [hk2]
    rw [mapGet_mapSet_self]
    simp only [Option.map_some']
    unfold AccountTimeseries.getMonthlyData
    rw [hts2]
    exact congrArg some (mapGet_mapSet_self _ _ _)

/-- C6: after any successful `addMonthlyData`, re-adding a record with the
same `(accountId, year, month)` key — the identical record included —
succeeds, leaves the dataset's total record count unchanged, and the
stored record for that key is the newly added one: an upsert that
replaces, never merges or duplicates. -/
theorem C6_addRecord_upsert (ds : TimeseriesDataset) (d e : MonthlyAccountData) (ds' : TimeseriesDataset)
    (hacc : e.account.accountId = d.account.accountId) (hyear : e.year = d.year)
    (hmonth : e.month = d.month) (hadd : ds.addMonthlyData d = .ok ds') :
    ∃ ds'', ds'.addMonthlyData e = .ok ds'' ∧
      ds''.totalDataPoints = ds'.totalDataPoints ∧
      (ds''.getAccountTimeseries e.account.accountId).map
        (fun ts => ts.getMonthlyData e.year e.month) = some (some e) := by
  unfold TimeseriesDataset.addMonthlyData AccountTimeseries.addMonthlyData at hadd
  cases hget : mapGet ds.accountTimeseries d.account.getKey with
  | some ts0 =>
    simp only [hget] at hadd
    split_ifs at hadd with hguard
    injection hadd with hadd
    subst hadd
    push_neg at hguard
    exact addSecondRecord ds d e ts0 hacc hyear hmonth hguard
  | none =>
    simp only [hget] at hadd
    split_ifs at hadd with hguard
    injection hadd with hadd
    subst hadd
    exact addSecondRecord ds d e ⟨d.account, []⟩ hacc hyear hmonth rfl


/-- Witness for `C6_addRecord_upsert`: replace the single record of
`dsAfterFirst` by a record with the same key and different values. -/
theorem C6_addRecord_upsert_witness :
    ∃ ds'', dsAfterFirst.addMonthlyData recSecond = .ok ds'' ∧
      ds''.totalDataPoints = dsAfterFirst.totalDataPoints ∧
      (ds''.getAccountTimeseries recSecond.account.accountId).map
        (fun ts => ts.getMonthlyData recSecond.year recSecond.month) = some (some recSecond) :=
  C6_addRecord_upsert ⟨[]⟩ recFirst recSecond dsAfterFirst rfl rfl rfl (by rfl)

/-! ## Claim C7 -/

/-- C7 counterexample: the CSV cell `"-5"` for `Reach` is accepted at
ingestion and produces a record whose reach metric is `-5` — a negative
number, contradicting "holds ... a non-negative number". -/
theorem C7_negative_metric_counterexample :
    (MonthlyAccountData.fromCSVRow rowNegReach 2025 1).map (fun r => r.metrics.reach)
      = .ok (-5) ∧ ¬ (0 ≤ (-5 : ℚ)) := by
  constructor
  · unfold MonthlyAccountData.fromCSVRow InstagramAccount.fromCSVRow rowNegReach
    norm_num +decide [truthyStr, parseNumeric,
      show jsParseFloat (stripCommas "-5") = some (-5) from by
        rw [show stripCommas "-5" = "-5" from by decide]
        unfold jsParseFloat
        rw [show floatParts "-5" = some (true, ['5'], []) from by decide]
        norm_num [show digitsVal ['5'] = 5 from by decide, show digitsVal [] = 0 from rfl],
      Except.map]
  · norm_num

/-- C7 (amended): a missing, empty or unparsable metric cell coerces to
`0` and never causes an error at this layer, and the constructed record
holds exactly the leniently parsed number of each metric cell — which may
be negative, since `parseNumeric` passes parsed negative values through
unchanged. -/
theorem C7_parse_coercion :
    (parseNumeric none = 0) ∧
    (parseNumeric (some "") = 0) ∧
    (∀ s : String, jsParseFloat (stripCommas s) = none → parseNumeric (some s) = 0) ∧
    (∀ (row : CSVRow) (year month : ℤ) (r : MonthlyAccountData),
        MonthlyAccountData.fromCSVRow row year month = .ok r →
          r.metrics = ⟨parseNumeric row.reach, parseNumeric row.followers,
            parseNumeric row.views⟩) ∧
    (∀ (row : CSVRow) (year month : ℤ),
        truthyStr row.account → truthyStr row.igId →
        year ≠ 0 → 1 ≤ month → month ≤ 12 →
        ∃ r, MonthlyAccountData.fromCSVRow row year month = .ok r) := by
  refine ⟨rfl, rfl, ?_, ?_, ?_⟩
  · intro s h
    by_cases hs : s = "" <;> simp [parseNumeric, hs, h]
  · intro row year month r h
    unfold MonthlyAccountData.fromCSVRow at h
    split at h
    · exact absurd h (by simp)
    · split_ifs at h with hym
      injection h with h
      subst h
      rfl
  · intro row year month hacc hig hy hm1 hm2
    cases hA : InstagramAccount.fromCSVRow row with
    | error e =>
      exfalso
      unfold InstagramAccount.fromCSVRow at hA
      split_ifs at hA with hc
      rcases hc with hc | hc <;> simp_all
    | ok account =>
      unfold MonthlyAccountData.fromCSVRow
      rw [hA]
      split_ifs with hg
      · exact absurd hg (by omega)
      · exact ⟨_, rfl⟩

theorem fromCSVRow_negReach_eval :
    MonthlyAccountData.fromCSVRow rowNegReach 2025 1 = .ok recNegReach := by
  unfold MonthlyAccountData.fromCSVRow InstagramAccount.fromCSVRow rowNegReach recNegReach
  norm_num +decide [truthyStr, parseNumeric, jsOrStr,
    show jsTrim "@gamma" = "@gamma" from by decide,
    show jsTrim "3" = "3" from by decide,
    show jsTrim "Gamma" = "Gamma" from by decide,
    show jsParseFloat (stripCommas "-5") = some (-5) from by
      rw [show stripCommas "-5" = "-5" from by decide]
      unfold jsParseFloat
      rw [show floatParts "-5" = some (true, ['5'], []) from by decide]
      norm_num [show digitsVal ['5'] = 5 from by decide, show digitsVal [] = 0 from rfl],
    show jsParseFloat (stripCommas "10") = some 10 from by
      rw [show stripCommas "10" = "10" from by decide]
      unfold jsParseFloat
      rw [show floatParts "10" = some (false, ['1','0'], []) from by decide]
      norm_num [show digitsVal ['1','0'] = 10 from by decide, show digitsVal [] = 0 from rfl],
    show jsParseFloat (stripCommas "20") = some 20 from by
      rw [show stripCommas "20" = "20" from by decide]
      unfold jsParseFloat
      rw [show floatParts "20" = some (false, ['2','0'], []) from by decide]
      norm_num [show digitsVal ['2','0'] = 20 from by decide, show digitsVal [] = 0 from rfl]]


/-- Witness for `C7_parse_coercion`: the unparsable cell `"abc"`, and the
concrete row `rowNegReach`. -/
theorem C7_parse_coercion_witness :
    parseNumeric (some "abc") = 0 ∧
    recNegReach.metrics = ⟨parseNumeric rowNegReach.reach, parseNumeric rowNegReach.followers,
      parseNumeric rowNegReach.views⟩ ∧
    (∃ r, MonthlyAccountData.fromCSVRow rowNegReach 2025 1 = .ok r) :=
  ⟨C7_parse_coercion.2.2.1 "abc" (by decide),
    C7_parse_coercion.2.2.2.1 rowNegReach 2025 1 recNegReach fromCSVRow_negReach_eval,
    C7_parse_coercion.2.2.2.2 rowNegReach 2025 1 (by decide) (by decide) (by decide)
      (by decide) (by decide)⟩

/-! ## Claim C8 -/

theorem jsParseFloat_five : jsParseFloat (stripCommas "5") = some 5 := by
  rw [show stripCommas "5" = "5" from by decide]
  unfold jsParseFloat
  rw [show floatParts "5" = some (false, ['5'], []) from by decide]
  norm_num [show digitsVal ['5'] = 5 from by decide, show digitsVal [] = 0 from rfl]

/-- C8 counterexample: in `csvRowsFatal` only 1 of 4 rows (25%) has
row-level errors, yet `validateCSVDataContent` is fatal, because the code
compares the number of error entries (2: missing `Account` and missing
`IG ID` on one row) — not the number of offending rows — against 50% of
the row count. -/
theorem C8_error_count_counterexample :
    (validateCSVDataContent csvRowsFatal).isValid = false ∧
    ((rowValidationsOf csvRowsFatal).filter (fun rv => !rv.isValid)).length = 1 ∧
    csvRowsFatal.length = 4 := by
  refine ⟨?_, ?_, rfl⟩
  · norm_num +decide [validateCSVDataContent, rowValidationsOf, validRowCount,
      collectedRowErrors, collectedRowWarnings, validateDataRow, blankStr,
      numericFieldWarnings, jsParseFloat_five, csvRowsFatal, rowGood, rowBothMissing,
      List.enum, List.enumFrom, jsTrim]
  · norm_num +decide [rowValidationsOf, validateDataRow, blankStr, numericFieldWarnings,
      jsParseFloat_five, csvRowsFatal, rowGood, rowBothMissing, List.enum, List.enumFrom,
      jsTrim]


/-- C8 (amended): zero rows and zero valid rows are fatal; otherwise the
file is valid iff the number of row-level error entries (a row missing
both required fields contributes two) is below 50% of the row count, and
when that count is strictly between 0 and the 50% bound a warning is
emitted listing the first 10 error entries; a row itself fails only on a
missing/blank `Account` or `IG ID`. -/
theorem C8_thresholds :
    (validateCSVDataContent [] =
      ⟨false, ["CSV-filen innehåller ingen data"], []⟩) ∧
    (∀ csvData : List CSVRow, csvData ≠ [] →
      ((validateCSVDataContent csvData).isValid = true ↔
        (0 < validRowCount csvData ∧
          ((collectedRowErrors csvData).length : ℚ) < (csvData.length : ℚ) * (1 / 2))) ∧
      (0 < (collectedRowErrors csvData).length →
        ((collectedRowErrors csvData).length : ℚ) < (csvData.length : ℚ) * (1 / 2) →
        ContentWarning.mk "rader har datafel men kan eventuellt processeras"
          ((collectedRowErrors csvData).take 10) ∈ (validateCSVDataContent csvData).warnings)) ∧
    (∀ (row : CSVRow) (n : ℕ), (validateDataRow row n).isValid = false ↔
        (blankStr row.account ∨ blankStr row.igId)) := by
  refine ⟨rfl, ?_, ?_⟩
  · intro csvData hne
    have hni : csvData.isEmpty = false := by
      cases csvData
      · exact absurd rfl hne
      · rfl
    constructor
    · by_cases hv0 : validRowCount csvData = 0
      · simp [validateCSVDataContent, hni, hv0]
      · by_cases he : ((collectedRowErrors csvData).length : ℚ) ≥ (csvData.length : ℚ) * (1 / 2)
        · simp [validateCSVDataContent, hni, hv0, he, not_lt.mpr he]
          exact fun _ => Nat.pos_of_ne_zero hv0
        · simp [validateCSVDataContent, hni, hv0, he, Nat.pos_of_ne_zero hv0,
            lt_of_not_ge he]
    · intro h0 hlt
      unfold validateCSVDataContent
      rw [hni]
      simp only [Bool.false_eq_true, if_false]
      refine List.mem_append_right _ ?_
      rw [if_pos ⟨h0, hlt⟩]
      exact List.mem_singleton.mpr rfl
  · intro row n
    unfold validateDataRow
    by_cases h1 : blankStr row.account <;> by_cases h2 : blankStr row.igId <;>
      simp [h1, h2]


theorem collectedRowErrors_warn_len : (collectedRowErrors csvRowsWarn).length = 1 := by
  norm_num +decide [collectedRowErrors, rowValidationsOf, validateDataRow, blankStr,
    numericFieldWarnings, jsParseFloat_five, csvRowsWarn, rowGood, rowAccountMissing,
    List.enum, List.enumFrom, jsTrim]

/-- Witness for `C8_thresholds` on `csvRowsWarn` (one error entry among
four rows: valid with a data-error warning) and on `rowBothMissing`. -/
theorem C8_thresholds_witness :
    (((validateCSVDataContent csvRowsWarn).isValid = true ↔
        (0 < validRowCount csvRowsWarn ∧
          ((collectedRowErrors csvRowsWarn).length : ℚ) <
            (csvRowsWarn.length : ℚ) * (1 / 2))) ∧
      (0 < (collectedRowErrors csvRowsWarn).length →
        ((collectedRowErrors csvRowsWarn).length : ℚ) <
          (csvRowsWarn.length : ℚ) * (1 / 2) →
        ContentWarning.mk "rader har datafel men kan eventuellt processeras"
          ((collectedRowErrors csvRowsWarn).take 10) ∈
            (validateCSVDataContent csvRowsWarn).warnings)) ∧
    ((validateDataRow rowBothMissing 1).isValid = false ↔
      (blankStr rowBothMissing.account ∨ blankStr rowBothMissing.igId)) ∧
    ContentWarning.mk "rader har datafel men kan eventuellt processeras"
      ((collectedRowErrors csvRowsWarn).take 10) ∈
        (validateCSVDataContent csvRowsWarn).warnings :=
  ⟨C8_thresholds.2.1 csvRowsWarn (by decide),
    C8_thresholds.2.2 rowBothMissing 1,
    (C8_thresholds.2.1 csvRowsWarn (by decide)).2
      (by rw [collectedRowErrors_warn_len]; norm_num)
      (by rw [collectedRowErrors_warn_len]; norm_num [csvRowsWarn])⟩


/-! ## Claim C10 -/

/-- Rounding to the nearest integer moves a rational by at most 1/2. -/
theorem jsRound_near (q : ℚ) : |(jsRound q : ℚ) - q| ≤ 1 / 2 := by
  unfold jsRound
  rw [abs_le]
  constructor
  · have h := Int.lt_floor_add_one (q + 1 / 2)
    push_cast at h ⊢
    linarith
  · have h := Int.floor_le (q + 1 / 2)
    push_cast at h ⊢
    linarith

/-- Evaluation: the valid views values of `tsTwoMonths` are `[100, 200]`. -/
theorem seriesValues_tsTwoMonths_views :
    seriesValues tsTwoMonths Metric.views = [100, 200] := by
  norm_num +decide [seriesValues, validMetricValues, AccountTimeseries.getAllMonthlyData,
    tsTwoMonths, exRec, exAcctA, List.insertionSort, List.orderedInsert, dataLe]

/-- Evaluation: averaging views 100 and 200 over `tsTwoMonths` yields 150. -/
theorem safeMetricAggregation_tsTwoMonths_average :
    safeMetricAggregation tsTwoMonths Metric.views "average" = .ok 150 := by
  rw [safeMetricAggregation_average]
  norm_num +decide [safeAverageVal, seriesValues, validMetricValues,
    AccountTimeseries.getAllMonthlyData, tsTwoMonths, exRec, exAcctA,
    List.insertionSort, List.orderedInsert, dataLe, listSum, jsRound, Metrics.get]

/-- Evaluation: the valid views values of `dsViews` for 2025-09 are
`[100, 200]`. -/
theorem validValues_dsViews_views :
    validMetricValues (dsViews.getDataForPeriod 2025 9) Metric.views = [100, 200] := by
  norm_num +decide [validMetricValues, TimeseriesDataset.getDataForPeriod,
    dsViews, tsViews100, tsViews200, exRec, exAcctA, exAcctB,
    AccountTimeseries.getMonthlyData, mapGet, List.insertionSort, List.orderedInsert,
    usernameLe, jsToLower, charListLe]

/-- Evaluation: the views summary of `calculatePeriodSummary` on `dsViews`
for 2025-09 is `msViews` (average 150). -/
theorem periodSummary_dsViews_views :
    (calculatePeriodSummary dsViews 2025 9).metrics.get Metric.views = some msViews := by
  norm_num +decide [calculatePeriodSummary, TimeseriesDataset.getDataForPeriod,
    dsViews, tsViews100, tsViews200, exRec, exAcctA, exAcctB,
    AccountTimeseries.getMonthlyData, mapGet, List.insertionSort, List.orderedInsert,
    periodMetricSummary, validMetricValues, PeriodSummaryMetrics.get, Metrics.get,
    NON_SUMMABLE_METRICS, listSum, listMin, listMax, jsRound, msViews]

/-- C10: every `average` produced by the aggregation paths is rounded to
the nearest integer — `safeMetricAggregation ts metric "average"` always
returns an integer-valued rational, within 1/2 of the exact mean of the
series values whenever there are any, and likewise the per-metric
`average` of every entry of `calculatePeriodSummary` is integer-valued and
within 1/2 of the exact mean of the period's valid values. -/
theorem C10_rounded_averages :
    (∀ (ts : AccountTimeseries) (metric : Metric) (q : ℚ),
        safeMetricAggregation ts metric "average" = .ok q →
          (∃ z : ℤ, q = (z : ℚ)) ∧
          (seriesValues ts metric ≠ [] →
            |q - listMean (seriesValues ts metric)| ≤ 1 / 2)) ∧
    (∀ (ds : TimeseriesDataset) (year month : ℤ) (metric : Metric) (ms : MetricSummary),
        (calculatePeriodSummary ds year month).metrics.get metric = some ms →
          (∃ z : ℤ, ms.average = (z : ℚ)) ∧
          (validMetricValues (ds.getDataForPeriod year month) metric ≠ [] →
            |ms.average - listMean (validMetricValues (ds.getDataForPeriod year month) metric)|
              ≤ 1 / 2)) := by
  constructor
  · intro ts metric q h
    rw [safeMetricAggregation_average] at h
    injection h with h
    subst h
    unfold safeAverageVal
    split_ifs with h1 h2
    · refine ⟨⟨0, by norm_num⟩, fun hne => ?_⟩
      exfalso
      apply hne
      unfold seriesValues validMetricValues
      rw [List.isEmpty_iff.mp h1]
      rfl
    · exact ⟨⟨0, by norm_num⟩, fun hne => absurd (List.isEmpty_iff.mp h2) hne⟩
    · exact ⟨⟨_, rfl⟩, fun _ => by unfold listMean; exact jsRound_near _⟩
  · intro ds year month metric ms h
    simp only [calculatePeriodSummary] at h
    split_ifs at h with hpd
    · cases metric <;> simp [PeriodSummaryMetrics.get] at h
    · have hms : ms = periodMetricSummary (ds.getDataForPeriod year month) metric := by
        cases metric <;>
          simpa [PeriodSummaryMetrics.get] using h.symm
      subst hms
      simp only [periodMetricSummary]
      by_cases hv : (validMetricValues (ds.getDataForPeriod year month) metric).isEmpty
      · rw [if_pos hv]
        exact ⟨⟨0, by norm_num⟩, fun hne => absurd (List.isEmpty_iff.mp hv) hne⟩
      · rw [if_neg hv]
        by_cases hns : NON_SUMMABLE_METRICS.contains metric
        · rw [if_pos hns]
          exact ⟨⟨_, rfl⟩, fun _ => by unfold listMean; exact jsRound_near _⟩
        · rw [if_neg hns]
          exact ⟨⟨_, rfl⟩, fun _ => by unfold listMean; exact jsRound_near _⟩

/-- Witness for `C10_rounded_averages` on both paths: views of
`tsTwoMonths` (average 150 of 100 and 200) and the 2025-09 views summary
of `dsViews`. -/
theorem C10_rounded_averages_witness :
    ((∃ z : ℤ, (150 : ℚ) = (z : ℚ)) ∧
        |(150 : ℚ) - listMean (seriesValues tsTwoMonths Metric.views)| ≤ 1 / 2) ∧
    ((∃ z : ℤ, msViews.average = (z : ℚ)) ∧
        |msViews.average -
            listMean (validMetricValues (dsViews.getDataForPeriod 2025 9) Metric.views)|
          ≤ 1 / 2) := by
  constructor
  · obtain ⟨hz, hb⟩ := C10_rounded_averages.1 tsTwoMonths Metric.views 150
      safeMetricAggregation_tsTwoMonths_average
    exact ⟨hz, hb (by rw [seriesValues_tsTwoMonths_views]; simp)⟩
  · obtain ⟨hz, hb⟩ := C10_rounded_averages.2 dsViews 2025 9 Metric.views msViews
      periodSummary_dsViews_views
    exact ⟨hz, hb (by rw [validValues_dsViews_views]; simp)⟩


/-! ## Claim C9 -/

theorem nextPeriod_month_bounds (p : Period) (h1 : 1 ≤ p.month) (h2 : p.month ≤ 12) :
    1 ≤ (nextPeriod p).month ∧ (nextPeriod p).month ≤ 12 := by
  unfold nextPeriod
  split_ifs with h <;> dsimp <;> omega

theorem periodIdx_nextPeriod (p : Period) (h2 : p.month ≤ 12) :
    periodIdx (nextPeriod p) = periodIdx p + 1 := by
  unfold periodIdx nextPeriod
  split_ifs with h <;> dsimp <;> omega

theorem stepN_props (n : ℕ) (p : Period) (h1 : 1 ≤ p.month) (h2 : p.month ≤ 12) :
    1 ≤ (stepN n p).month ∧ (stepN n p).month ≤ 12 ∧
      periodIdx (stepN n p) = periodIdx p + n := by
  induction n generalizing p with
  | zero => exact ⟨h1, h2, by norm_num [stepN]⟩
  | succ n ih =>
    obtain ⟨hb1, hb2⟩ := nextPeriod_month_bounds p h1 h2
    obtain ⟨g1, g2, g3⟩ := ih (nextPeriod p) hb1 hb2
    refine ⟨g1, g2, ?_⟩
    have hstep : stepN (n + 1) p = stepN n (nextPeriod p) := rfl
    rw [hstep, g3, periodIdx_nextPeriod p h2]
    push_cast
    ring

theorem stepN_add (m n : ℕ) (a : Period) : stepN (m + n) a = stepN n (stepN m a) := by
  induction m generalizing a with
  | zero =>
    rw [Nat.zero_add]
    rfl
  | succ m ih =>
    have h : m + 1 + n = (m + n) + 1 := by omega
    rw [h]
    exact ih (nextPeriod a)

theorem mem_periodRange (len : ℕ) (a : Period) (p : Period) :
    p ∈ periodRange a len ↔ ∃ k, k < len ∧ p = stepN k a := by
  induction len generalizing a with
  | zero => simp [periodRange]
  | succ len ih =>
    simp only [periodRange, List.mem_cons, ih]
    constructor
    · rintro (rfl | ⟨k, hk, rfl⟩)
      · exact ⟨0, Nat.succ_pos _, rfl⟩
      · exact ⟨k + 1, by omega, rfl⟩
    · rintro ⟨k, hk, rfl⟩
      cases k with
      | zero => exact Or.inl rfl
      | succ k => exact Or.inr ⟨k, by omega, rfl⟩

theorem periodRange_add (m n : ℕ) (a : Period) :
    periodRange a (m + n) = periodRange a m ++ periodRange (stepN m a) n := by
  induction m generalizing a with
  | zero => simp [periodRange, stepN]
  | succ m ih =>
    have h : m + 1 + n = (m + n) + 1 := by omega
    rw [h]
    show a :: periodRange (nextPeriod a) (m + n) =
      (a :: periodRange (nextPeriod a) m) ++ periodRange (stepN (m + 1) a) n
    rw [ih (nextPeriod a)]
    rfl

theorem getLast_periodRange (k : ℕ) (b : Period) :
    (periodRange b (k + 1)).getLast? = some (stepN k b) := by
  induction k generalizing b with
  | zero => rfl
  | succ k ih =>
    show (b :: nextPeriod b :: periodRange (nextPeriod (nextPeriod b)) k).getLast? = _
    rw [List.getLast?_cons_cons]
    exact ih (nextPeriod b)

theorem periodKey_inj {p q : Period} (h : periodKey p = periodKey q) : p = q := by
  cases p
  cases q
  simpa [periodKey, Prod.ext_iff] using h

theorem sorted_periodRange (len : ℕ) (a : Period) (h1 : 1 ≤ a.month) (h2 : a.month ≤ 12) :
    List.Sorted periodLe (periodRange a len) := by
  induction len generalizing a with
  | zero => simp [periodRange]
  | succ len ih =>
    obtain ⟨hb1, hb2⟩ := nextPeriod_month_bounds a h1 h2
    show List.Sorted periodLe (a :: periodRange (nextPeriod a) len)
    refine List.sorted_cons.mpr ⟨?_, ih (nextPeriod a) hb1 hb2⟩
    intro b hb
    obtain ⟨k, hk, rfl⟩ := (mem_periodRange _ _ _).mp hb
    obtain ⟨hm1, hm2, hsx⟩ := stepN_props k (nextPeriod a) hb1 hb2
    have hdx : periodIdx (nextPeriod a) = periodIdx a + 1 := periodIdx_nextPeriod a h2
    unfold periodLe periodIdx at *
    omega


theorem stepN_succ_eq (n : ℕ) (p : Period) : stepN (n + 1) p = nextPeriod (stepN n p) :=
  stepN_add n 1 p

theorem missingWalk_stop (currentYear : ℤ) (existing : List (ℤ × ℤ)) (lastP : Period)
    (fuel : ℕ) (y m : ℤ)
    (h : ¬ (y < lastP.year ∨ (y = lastP.year ∧ m ≤ lastP.month))) :
    missingWalk currentYear existing lastP fuel y m = .ok [] := by
  cases fuel with
  | zero => rfl
  | succ fuel =>
    simp only [missingWalk]
    rw [if_neg h]

theorem missingWalk_spec (len : ℕ) (currentYear : ℤ) (existing : List (ℤ × ℤ))
    (a : Period) (fuel : ℕ)
    (h1 : 1 ≤ a.month) (h2 : a.month ≤ 12)
    (hfuel : len + 1 ≤ fuel)
    (hvalid : ∀ p ∈ periodRange a (len + 1),
        existing.contains (periodKey p) = false →
          isValidPeriod currentYear p.year p.month = true) :
    missingWalk currentYear existing (stepN len a) fuel a.year a.month =
      .ok ((periodRange a (len + 1)).filter
        (fun p => ! existing.contains (periodKey p))) := by
  induction len generalizing a fuel with
  | zero =>
    cases fuel with
    | zero => omega
    | succ fuel =>
      have hL : stepN 0 a = a := rfl
      rw [hL]
      simp only [missingWalk]
      rw [if_pos (by simp)]
      have hnext : ¬ ((if a.month + 1 > 12 then a.year + 1 else a.year) < a.year ∨
          ((if a.month + 1 > 12 then a.year + 1 else a.year) = a.year ∧
            (if a.month + 1 > 12 then 1 else a.month + 1) ≤ a.month)) := by
        split_ifs <;> omega
      rw [missingWalk_stop currentYear existing a fuel _ _ hnext]
      by_cases hc : existing.contains (a.year, a.month) = true
      · rw [if_pos hc]
        have hmem : (a.year, a.month) ∈ existing := List.elem_iff.mp hc
        simp [periodRange, periodKey, hmem]
      · rw [if_neg hc]
        have hc2 : existing.contains (a.year, a.month) = false := by
          simpa using hc
        have hnmem : (a.year, a.month) ∉ existing := fun hm => hc (List.elem_iff.mpr hm)
        have hv : isValidPeriod currentYear a.year a.month = true :=
          hvalid a (by simp [periodRange]) hc2
        unfold createStandardFilename
        rw [if_neg (not_not_intro hv)]
        simp [periodRange, periodKey, hnmem]
  | succ len ih =>
    cases fuel with
    | zero => omega
    | succ fuel =>
      obtain ⟨hb1, hb2⟩ := nextPeriod_month_bounds a h1 h2
      obtain ⟨hm1, hm2, hsx⟩ := stepN_props (len + 1) a h1 h2
      have hcond : a.year < (stepN (len + 1) a).year ∨
          (a.year = (stepN (len + 1) a).year ∧ a.month ≤ (stepN (len + 1) a).month) := by
        unfold periodIdx at hsx
        omega
      simp only [missingWalk]
      rw [if_pos (by tauto)]
      have hny : (if a.month + 1 > 12 then a.year + 1 else a.year) = (nextPeriod a).year := by
        unfold nextPeriod
        split_ifs <;> rfl
      have hnm : (if a.month + 1 > 12 then 1 else a.month + 1) = (nextPeriod a).month := by
        unfold nextPeriod
        split_ifs <;> rfl
      rw [hny, hnm]
      have hL : stepN (len + 1) a = stepN len (nextPeriod a) := rfl
      rw [hL]
      have hrec := ih (nextPeriod a) fuel hb1 hb2 (by omega)
        (fun p hp hcf => hvalid p (List.mem_cons_of_mem a hp) hcf)
      rw [hrec]
      by_cases hc : existing.contains (a.year, a.month) = true
      · rw [if_pos hc]
        have hmem : (a.year, a.month) ∈ existing := List.elem_iff.mp hc
        show _ = Except.ok ((a :: periodRange (nextPeriod a) (len + 1)).filter
          (fun p => ! existing.contains (periodKey p)))
        rw [List.filter_cons]
        simp [periodKey, hmem]
      · rw [if_neg hc]
        have hc2 : existing.contains (a.year, a.month) = false := by
          simpa using hc
        have hnmem : (a.year, a.month) ∉ existing := fun hm => hc (List.elem_iff.mpr hm)
        have hv : isValidPeriod currentYear a.year a.month = true :=
          hvalid a (by simp [periodRange]) hc2
        unfold createStandardFilename
        rw [if_neg (not_not_intro hv)]
        show _ = Except.ok ((a :: periodRange (nextPeriod a) (len + 1)).filter
          (fun p => ! existing.contains (periodKey p)))
        rw [List.filter_cons]
        simp [periodKey, hnmem]

theorem findMissingPeriods_sorted_cons (currentYear : ℤ) (f : Period) (rest : List Period)
    (hs : List.Sorted periodLe (f :: rest)) :
    findMissingPeriods currentYear (f :: rest) =
      missingWalk currentYear ((f :: rest).map periodKey)
        (((f :: rest).getLast?).getD f)
        (((((((f :: rest).getLast?).getD f).year - f.year).toNat) + 2) * 12)
        f.year f.month := by
  simp only [findMissingPeriods, List.Sorted.insertionSort_eq hs]


theorem contains_key_of_mem {l : List Period} {p : Period} (h : p ∈ l) :
    (l.map periodKey).contains (periodKey p) = true :=
  List.elem_iff.mpr (List.mem_map_of_mem periodKey h)

theorem findMissingPeriods_range (currentYear : ℤ) (a : Period) (len : ℕ)
    (h1 : 1 ≤ a.month) (h2 : a.month ≤ 12) :
    findMissingPeriods currentYear (periodRange a (len + 1)) = .ok [] := by
  have hr : periodRange a (len + 1) = a :: periodRange (nextPeriod a) len := rfl
  have hsorted : List.Sorted periodLe (a :: periodRange (nextPeriod a) len) :=
    hr ▸ sorted_periodRange (len + 1) a h1 h2
  rw [hr, findMissingPeriods_sorted_cons currentYear a _ hsorted]
  have hlast : (a :: periodRange (nextPeriod a) len).getLast? = some (stepN len a) := by
    rw [← hr]
    exact getLast_periodRange len a
  rw [hlast]
  simp only [Option.getD_some]
  obtain ⟨hm1, hm2, hsx⟩ := stepN_props len a h1 h2
  have hfuel : len + 1 ≤ (((stepN len a).year - a.year).toNat + 2) * 12 := by
    unfold periodIdx at hsx
    omega
  have hvalid : ∀ p ∈ periodRange a (len + 1),
      ((a :: periodRange (nextPeriod a) len).map periodKey).contains (periodKey p) = false →
        isValidPeriod currentYear p.year p.month = true := by
    intro p hp hcf
    rw [contains_key_of_mem (hr ▸ hp)] at hcf
    exact Bool.noConfusion hcf
  rw [missingWalk_spec len currentYear _ a _ h1 h2 hfuel hvalid]
  have hnil : (periodRange a (len + 1)).filter
      (fun p => ! ((a :: periodRange (nextPeriod a) len).map periodKey).contains
        (periodKey p)) = [] := by
    rw [List.filter_eq_nil_iff]
    intro p hp hcontra
    rw [contains_key_of_mem (hr ▸ hp)] at hcontra
    exact Bool.noConfusion hcontra
  rw [hnil]

theorem findMissingPeriods_interior (currentYear : ℤ) (a : Period) (j k : ℕ)
    (h1 : 1 ≤ a.month) (h2 : a.month ≤ 12)
    (hval : isValidPeriod currentYear (stepN (j + 1) a).year (stepN (j + 1) a).month = true) :
    findMissingPeriods currentYear
        (periodRange a (j + 1) ++ periodRange (stepN (j + 2) a) (k + 1)) =
      .ok [stepN (j + 1) a] := by
  have hb := stepN_props (j + 2) a h1 h2
  have hsorted : List.Sorted periodLe
      (periodRange a (j + 1) ++ periodRange (stepN (j + 2) a) (k + 1)) := by
    rw [List.Sorted, List.pairwise_append]
    refine ⟨sorted_periodRange (j + 1) a h1 h2,
      sorted_periodRange (k + 1) (stepN (j + 2) a) hb.1 hb.2.1, ?_⟩
    intro x hx y hy
    obtain ⟨i, hi, rfl⟩ := (mem_periodRange _ _ _).mp hx
    obtain ⟨n, hn, rfl⟩ := (mem_periodRange _ _ _).mp hy
    obtain ⟨hx1, hx2, hxx⟩ := stepN_props i a h1 h2
    have hcomp : stepN n (stepN (j + 2) a) = stepN (j + 2 + n) a := (stepN_add _ _ _).symm
    obtain ⟨hz1, hz2, hzz⟩ := stepN_props (j + 2 + n) a h1 h2
    rw [hcomp]
    simp only [periodLe, periodIdx] at *
    omega
  have hrem : stepN (j + 1) a ∉
      (periodRange a (j + 1) ++ periodRange (stepN (j + 2) a) (k + 1)) := by
    intro hmem
    obtain ⟨hr1, hr2, hrx⟩ := stepN_props (j + 1) a h1 h2
    rw [List.mem_append] at hmem
    cases hmem with
    | inl h =>
      obtain ⟨i, hi, he⟩ := (mem_periodRange _ _ _).mp h
      obtain ⟨hi1, hi2, hix⟩ := stepN_props i a h1 h2
      have hidx := congrArg periodIdx he
      rw [hrx, hix] at hidx
      omega
    | inr h =>
      obtain ⟨i, hi, he⟩ := (mem_periodRange _ _ _).mp h
      have he2 : stepN (j + 1) a = stepN (j + 2 + i) a := by
        rw [he, ← stepN_add]
      obtain ⟨hi1, hi2, hix⟩ := stepN_props (j + 2 + i) a h1 h2
      have hidx := congrArg periodIdx he2
      rw [hrx, hix] at hidx
      omega
  have hmem_input : ∀ i : ℕ, i < j + k + 3 → i ≠ j + 1 →
      stepN i a ∈ periodRange a (j + 1) ++ periodRange (stepN (j + 2) a) (k + 1) := by
    intro i hi hne
    rw [List.mem_append]
    by_cases hij : i < j + 1
    · exact Or.inl ((mem_periodRange _ _ _).mpr ⟨i, hij, rfl⟩)
    · refine Or.inr ((mem_periodRange _ _ _).mpr ⟨i - (j + 2), by omega, ?_⟩)
      have hadd : stepN (j + 2 + (i - (j + 2))) a = stepN (i - (j + 2)) (stepN (j + 2) a) :=
        stepN_add _ _ _
      rw [← hadd, show j + 2 + (i - (j + 2)) = i from by omega]
  have hin : periodRange a (j + 1) ++ periodRange (stepN (j + 2) a) (k + 1) =
      a :: (periodRange (nextPeriod a) j ++ periodRange (stepN (j + 2) a) (k + 1)) := rfl
  have hs2 : List.Sorted periodLe
      (a :: (periodRange (nextPeriod a) j ++ periodRange (stepN (j + 2) a) (k + 1))) :=
    hin ▸ hsorted
  rw [hin, findMissingPeriods_sorted_cons currentYear a _ hs2]
  have hlast : (a :: (periodRange (nextPeriod a) j ++
      periodRange (stepN (j + 2) a) (k + 1))).getLast? = some (stepN (j + k + 2) a) := by
    have hcs : periodRange (stepN (j + 2) a) (k + 1) =
        stepN (j + 2) a :: periodRange (nextPeriod (stepN (j + 2) a)) k := rfl
    rw [show (a :: (periodRange (nextPeriod a) j ++ periodRange (stepN (j + 2) a) (k + 1))) =
        (a :: periodRange (nextPeriod a) j) ++ periodRange (stepN (j + 2) a) (k + 1) from rfl]
    rw [hcs, List.getLast?_append_cons, ← hcs, getLast_periodRange]
    have hadd : stepN (j + 2 + k) a = stepN k (stepN (j + 2) a) := stepN_add _ _ _
    rw [← hadd, show j + 2 + k = j + k + 2 from by omega]
  rw [hlast]
  simp only [Option.getD_some]
  obtain ⟨hm1, hm2, hsx⟩ := stepN_props (j + k + 2) a h1 h2
  have hfuel : (j + k + 2) + 1 ≤ (((stepN (j + k + 2) a).year - a.year).toNat + 2) * 12 := by
    unfold periodIdx at hsx
    omega
  have hkeys : ∀ p : Period,
      p ∈ periodRange a (j + 1) ++ periodRange (stepN (j + 2) a) (k + 1) →
      ((a :: (periodRange (nextPeriod a) j ++
        periodRange (stepN (j + 2) a) (k + 1))).map periodKey).contains
          (periodKey p) = true :=
    fun p hp => contains_key_of_mem (hin ▸ hp)
  have hvalid : ∀ p ∈ periodRange a ((j + k + 2) + 1),
      ((a :: (periodRange (nextPeriod a) j ++ periodRange (stepN (j + 2) a) (k + 1))).map
        periodKey).contains (periodKey p) = false →
        isValidPeriod currentYear p.year p.month = true := by
    intro p hp hcf
    obtain ⟨i, hi, rfl⟩ := (mem_periodRange _ _ _).mp hp
    by_cases hij : i = j + 1
    · subst hij
      exact hval
    · have ht := hkeys _ (hmem_input i (by omega) hij)
      rw [hcf] at ht
      exact Bool.noConfusion ht
  rw [missingWalk_spec (j + k + 2) currentYear _ a _ h1 h2 hfuel hvalid]
  have hsplit : periodRange a ((j + k + 2) + 1) =
      periodRange a (j + 1) ++ (stepN (j + 1) a :: periodRange (stepN (j + 2) a) (k + 1)) := by
    have h0 : periodRange a ((j + 1) + (k + 2)) =
        periodRange a (j + 1) ++ periodRange (stepN (j + 1) a) (k + 2) := periodRange_add _ _ _
    rw [show (j + k + 2) + 1 = (j + 1) + (k + 2) from by omega, h0]
    congr 1
    show stepN (j + 1) a :: periodRange (nextPeriod (stepN (j + 1) a)) (k + 1) = _
    rw [← stepN_succ_eq, show j + 1 + 1 = j + 2 from rfl]
  rw [hsplit, List.filter_append, List.filter_cons]
  have hpre : (periodRange a (j + 1)).filter
      (fun p => ! ((a :: (periodRange (nextPeriod a) j ++
        periodRange (stepN (j + 2) a) (k + 1))).map periodKey).contains (periodKey p)) = [] := by
    rw [List.filter_eq_nil_iff]
    intro p hp hcontra
    rw [hkeys p (List.mem_append_left _ hp)] at hcontra
    exact Bool.noConfusion hcontra
  have hsuf : (periodRange (stepN (j + 2) a) (k + 1)).filter
      (fun p => ! ((a :: (periodRange (nextPeriod a) j ++
        periodRange (stepN (j + 2) a) (k + 1))).map periodKey).contains (periodKey p)) = [] := by
    rw [List.filter_eq_nil_iff]
    intro p hp hcontra
    rw [hkeys p (List.mem_append_right _ hp)] at hcontra
    exact Bool.noConfusion hcontra
  have hrc : (((a :: (periodRange (nextPeriod a) j ++
      periodRange (stepN (j + 2) a) (k + 1))).map periodKey).contains
        (periodKey (stepN (j + 1) a))) = false := by
    cases hc2 : (((a :: (periodRange (nextPeriod a) j ++
        periodRange (stepN (j + 2) a) (k + 1))).map periodKey).contains
          (periodKey (stepN (j + 1) a))) with
    | false => rfl
    | true =>
      obtain ⟨q, hq, hkey⟩ := List.mem_map.mp (List.elem_iff.mp hc2)
      exact absurd (periodKey_inj hkey ▸ (hin ▸ hq : q ∈ _)) hrem
  rw [hpre, hsuf, hrc]
  simp


/-- C9 counterexample: the contiguous range 2025-01..2025-03 with its first
period (an endpoint) removed. The claim demands `findMissingPeriods` return
exactly `[2025-01]`, but the walk starts at the earliest REMAINING period,
so the removed endpoint is undetectable and the result is `[]`. -/
theorem C9_endpoint_removal_counterexample :
    periodRange ⟨2025, 1⟩ 3 = [⟨2025, 1⟩, ⟨2025, 2⟩, ⟨2025, 3⟩] ∧
    findMissingPeriods 2025 [⟨2025, 2⟩, ⟨2025, 3⟩] = .ok [] ∧
    (Except.ok [] : Except String (List Period)) ≠ .ok [⟨2025, 1⟩] := by
  refine ⟨by decide, rfl, ?_⟩
  intro h
  injection h with h
  exact List.noConfusion h

/-- C9 (amended): for the empty input `findMissingPeriods` returns `.ok []`
(not an error); a full contiguous range reports no missing periods — hence
removing an ENDPOINT of a range is undetectable; and for a contiguous range
with one INTERIOR period removed (nonempty prefix and suffix remain, and
the removed period passes the validity window) the function returns exactly
that removed period. -/
theorem C9_missing_periods_round_trip :
    (∀ currentYear : ℤ, findMissingPeriods currentYear [] = .ok []) ∧
    (∀ (currentYear : ℤ) (a : Period) (len : ℕ),
        1 ≤ a.month → a.month ≤ 12 →
        findMissingPeriods currentYear (periodRange a len) = .ok []) ∧
    (∀ (currentYear : ℤ) (a : Period) (j k : ℕ),
        1 ≤ a.month → a.month ≤ 12 →
        isValidPeriod currentYear (stepN (j + 1) a).year (stepN (j + 1) a).month = true →
        periodRange a (j + 1) ++ stepN (j + 1) a :: periodRange (stepN (j + 2) a) (k + 1) =
            periodRange a (j + k + 3) ∧
          findMissingPeriods currentYear
              (periodRange a (j + 1) ++ periodRange (stepN (j + 2) a) (k + 1)) =
            .ok [stepN (j + 1) a]) := by
  refine ⟨fun _ => rfl, ?_, ?_⟩
  · intro currentYear a len h1 h2
    cases len with
    | zero => rfl
    | succ len => exact findMissingPeriods_range currentYear a len h1 h2
  · intro currentYear a j k h1 h2 hval
    constructor
    · have h0 : periodRange a ((j + 1) + (k + 2)) =
          periodRange a (j + 1) ++ periodRange (stepN (j + 1) a) (k + 2) := periodRange_add _ _ _
      rw [show j + k + 3 = (j + 1) + (k + 2) from by omega, h0]
      congr 1
      show _ = stepN (j + 1) a :: periodRange (nextPeriod (stepN (j + 1) a)) (k + 1)
      rw [← stepN_succ_eq, show j + 1 + 1 = j + 2 from rfl]
    · exact findMissingPeriods_interior currentYear a j k h1 h2 hval

/-- Witness for `C9_missing_periods_round_trip`: the empty input; the full
range 2025-04..2025-06; and the range 2024-11..2025-01 with its interior
period 2024-12 removed, which is reported as the one missing period. -/
theorem C9_missing_periods_round_trip_witness :
    findMissingPeriods 2025 [] = .ok [] ∧
    findMissingPeriods 2025 (periodRange ⟨2025, 4⟩ 3) = .ok [] ∧
    (periodRange ⟨2024, 11⟩ 1 ++ stepN 1 ⟨2024, 11⟩ :: periodRange (stepN 2 ⟨2024, 11⟩) 1 =
        periodRange ⟨2024, 11⟩ 3 ∧
      findMissingPeriods 2025 (periodRange ⟨2024, 11⟩ 1 ++ periodRange (stepN 2 ⟨2024, 11⟩) 1) =
        .ok [stepN 1 ⟨2024, 11⟩]) :=
  ⟨C9_missing_periods_round_trip.1 2025,
    C9_missing_periods_round_trip.2.1 2025 ⟨2025, 4⟩ 3 (by decide) (by decide),
    C9_missing_periods_round_trip.2.2 2025 ⟨2024, 11⟩ 0 0 (by decide) (by decide) (by decide)⟩

end InstaCore
